import Mathlib

/-!
Verification of the dicode-software backend (Sora video sequence orchestrator).

This file gives a shallow embedding, in Lean 4, of the parts of the
repository that the specification talks about:

* `src/backend/generator.py` — `parse_openai_error`, `build_prompt`,
  `generate_video_sequence`, `remix_existing_video`, `remix_video_sequence`;
* `src/backend/app.py` — `run_generation_in_thread`, `stream_progress`,
  `get_result`, the `generate` and `remix` request handlers;
* `src/utils/resizer.py` — `resize_image`.

Remote services (the OpenAI video API), the downloader
(`utils/downloader.py`, which is not part of the sources available here)
and the file system are modelled as explicit oracles/parameters, so every
run of the code becomes a pure function of its inputs and of the oracle.
Python dictionaries keyed by strings become association lists, Python
`str` becomes `String`, and Python truthiness of a string becomes the
test against `""`.
-/

namespace Dicode

set_option maxRecDepth 16384

/-! ## String utilities mirroring the Python primitives -/

/-- The `\x7b` character (left curly brace), used when scanning for JSON. -/
def lbrace : Char := Char.ofNat 123

/-- The `\x7d` character (right curly brace), used when scanning for JSON. -/
def rbrace : Char := Char.ofNat 125

/-- Python `str` whitespace for `.strip()`: space, tab, newline, carriage
return, vertical tab, form feed (the ASCII part of Python whitespace). -/
def isPySpace (c : Char) : Bool :=
  c = ' ' || c = '\t' || c = '\n' || c = '\r' || c = Char.ofNat 11 || c = Char.ofNat 12

/-- Python `s.strip()`: remove leading and trailing whitespace. -/
def pystrip (s : String) : String :=
  ⟨((s.data.dropWhile isPySpace).reverse.dropWhile isPySpace).reverse⟩

/-- Python `s.lower()` (restricted to ASCII, which is all the code matches on). -/
def pylower (s : String) : String := ⟨s.data.map Char.toLower⟩

/-- Python substring containment `pat in big`. -/
def containsStr (big pat : String) : Prop := pat.data <:+: big.data

instance (big pat : String) : Decidable (containsStr big pat) :=
  List.decidableInfix pat.data big.data

/-- Python `". ".join(parts)`. -/
def joinParts : List String → String
  | [] => ""
  | [x] => x
  | x :: y :: ys => x ++ ". " ++ joinParts (y :: ys)

/-! ## Data model: shots (src/backend/generator.py)

A shot is the dictionary of user-supplied fields.  Python reads every
field with `shot_data.get(key, "")` (and treats `None` like `""` where it
guards with `or ""`), so an absent field and the empty string behave the
same and each field is modelled as a plain `String`. -/

structure Shot where
  characters : String := ""
  environment : String := ""
  lighting : String := ""
  camera_angles : String := ""
  dialog : String := ""
  voice : String := ""
deriving DecidableEq, Repr, Inhabited

/-- `build_prompt(shot_data, shot_number, shots_data)` from
src/backend/generator.py lines 73-179, translated clause by clause.
Python truthiness of a string is the test against `""`; `.strip()` is
`pystrip`; `". ".join` is `joinParts`. -/
def build_prompt (shot_data : Shot) (shot_number : Nat) (shots_data : List Shot) : String :=
  if shot_number > 1 then
    -- Remix branch: fall back to shot 1 for blank fields.
    let characters :=
      let c := pystrip shot_data.characters
      if c = "" ∧ shots_data ≠ [] then pystrip (shots_data.headI).characters else c
    let environment :=
      let e := pystrip shot_data.environment
      if e = "" ∧ shots_data ≠ [] then pystrip (shots_data.headI).environment else e
    let lighting :=
      let l := pystrip shot_data.lighting
      if l = "" ∧ shots_data ≠ [] then pystrip (shots_data.headI).lighting else l
    let camera_angles :=
      let c := pystrip shot_data.camera_angles
      if c = "" ∧ shots_data ≠ [] then pystrip (shots_data.headI).camera_angles else c
    let voice_spec :=
      let v := pystrip shot_data.voice
      if v = "" ∧ shots_data ≠ [] then pystrip (shots_data.headI).voice else v
    let prompt_parts : List String :=
      (if characters ≠ "" then ["The same " ++ characters] else []) ++
      (if environment ≠ "" then ["in the same " ++ environment] else []) ++
      (if lighting ≠ "" then [lighting] else []) ++
      (if camera_angles ≠ "" then [camera_angles] else []) ++
      [if voice_spec ≠ "" then
        "Use the same speaking voice: " ++ voice_spec ++
          ". Maintain identical microphone tone and recording chain."
      else
        "Use the exact same speaking voice, accent, delivery, and microphone tone as the previous shot."] ++
      ["maintaining exact same appearance, clothing, tone, and speaking style from previous shot"] ++
      (if shot_data.dialog ≠ "" then
        ["Maintain background audio and ambient sounds. Change only the dialog to: \x27" ++
          shot_data.dialog ++ "\x27"]
      else [])
    joinParts prompt_parts
  else
    -- Shot 1: descriptive prompt from the raw fields.
    let prompt_parts : List String :=
      (if shot_data.characters ≠ "" then [shot_data.characters] else []) ++
      (if shot_data.environment ≠ "" then ["in " ++ shot_data.environment] else []) ++
      (if shot_data.lighting ≠ "" then [shot_data.lighting] else []) ++
      (if shot_data.camera_angles ≠ "" then [shot_data.camera_angles] else []) ++
      (if shot_data.dialog ≠ "" then ["\x27" ++ shot_data.dialog ++ "\x27"] else []) ++
      (let v := pystrip shot_data.voice
       if v ≠ "" then
        ["Speaking voice: " ++ v ++
          ". Microphone tone and recording chain should be consistent across shots."]
       else [])
    joinParts prompt_parts

/-! ## Error classification (src/backend/generator.py, `parse_openai_error`)

`parse_openai_error` shells out to two Python-stdlib collaborators:
`re.search` with the greedy pattern matching a first-left-brace to
last-right-brace span on one line, and `json.loads`.  The regex scan is
translated exactly (`braceMatch`); `json.loads` is modelled by a
recursive-descent JSON reader (`jsonLoads`) covering objects, arrays,
strings with every escape including `\uXXXX` (surrogate pairs combined,
as CPython does), numbers with fraction and exponent, booleans, null,
and CPython's `NaN`/`Infinity`/`-Infinity` extensions; trailing
non-whitespace is rejected the way `json.loads` raises "Extra data". -/

/-- JSON values, as produced by `json.loads`.  Numbers are carried
exactly as rationals and nothing ever computes with them, so the
difference from CPython's binary floats is immaterial; `nan` and
`infinity` stand for the float extensions `json.loads` accepts. -/
inductive Json where
  | null
  | bool (b : Bool)
  | num (q : ℚ)
  | nan
  | infinity (neg : Bool)
  | str (s : String)
  | arr (elems : List Json)
  | obj (fields : List (String × Json))
deriving Repr, Inhabited

/-- JSON whitespace accepted between tokens. -/
def isJsonWs (c : Char) : Bool := c = ' ' || c = '\t' || c = '\n' || c = '\r'

/-- The value of one hexadecimal digit. -/
def hexVal (c : Char) : Option Nat :=
  if c.isDigit then some (c.toNat - 48)
  else if 'a' ≤ c ∧ c ≤ 'f' then some (c.toNat - 87)
  else if 'A' ≤ c ∧ c ≤ 'F' then some (c.toNat - 55)
  else none

/-- Four hexadecimal digits, as in a `\uXXXX` escape. -/
def readHex4 : List Char → Option (Nat × List Char)
  | h1 :: h2 :: h3 :: h4 :: rest =>
    match hexVal h1, hexVal h2, hexVal h3, hexVal h4 with
    | some a, some b, some c, some d =>
      some (((a * 16 + b) * 16 + c) * 16 + d, rest)
    | _, _, _, _ => none
  | _ => none

/-- Read a JSON string body (after the opening quote), handling every
escape: the single-character ones and `\uXXXX`, with a high/low
surrogate pair combined into one code point as CPython does.  (A lone
surrogate, which CPython keeps as an unpaired code unit, is not a
Unicode scalar and so collapses to `Char.ofNat`'s default; no error
string contains one.)  Gives the decoded text and the rest. -/
def readJStr (fuel : Nat) (cs : List Char) (acc : List Char) : Option (String × List Char) :=
  match fuel with
  | 0 => none
  | fuel + 1 =>
    match cs with
    | [] => none
    | c :: rest =>
      if c = '"' then some (⟨acc.reverse⟩, rest)
      else if c = '\\' then
        match rest with
        | [] => none
        | e :: rest2 =>
          if e = '"' then readJStr fuel rest2 ('"' :: acc)
          else if e = '\\' then readJStr fuel rest2 ('\\' :: acc)
          else if e = '/' then readJStr fuel rest2 ('/' :: acc)
          else if e = 'n' then readJStr fuel rest2 ('\n' :: acc)
          else if e = 't' then readJStr fuel rest2 ('\t' :: acc)
          else if e = 'r' then readJStr fuel rest2 ('\r' :: acc)
          else if e = 'b' then readJStr fuel rest2 (Char.ofNat 8 :: acc)
          else if e = 'f' then readJStr fuel rest2 (Char.ofNat 12 :: acc)
          else if e = 'u' then
            match readHex4 rest2 with
            | none => none
            | some (n, rest3) =>
              if 55296 ≤ n ∧ n ≤ 56319 then
                -- high surrogate: combine with a following low surrogate
                match rest3 with
                | '\\' :: 'u' :: rest4 =>
                  (match readHex4 rest4 with
                   | some (n2, rest5) =>
                     if 56320 ≤ n2 ∧ n2 ≤ 57343 then
                       readJStr fuel rest5
                         (Char.ofNat (65536 + (n - 55296) * 1024 + (n2 - 56320)) :: acc)
                     else readJStr fuel rest3 (Char.ofNat n :: acc)
                   | none => readJStr fuel rest3 (Char.ofNat n :: acc))
                | _ => readJStr fuel rest3 (Char.ofNat n :: acc)
              else readJStr fuel rest3 (Char.ofNat n :: acc)
          else none
      else readJStr fuel rest (c :: acc)

/-- A digit run as a natural number. -/
def digitsToNat (ds : List Char) : Nat :=
  ds.foldl (fun n c => n * 10 + (c.toNat - 48)) 0

/-- The JSON number grammar as `json.loads` accepts it: optional sign,
integer part without leading zeros, optional fraction, optional
exponent; the exact rational value is returned. -/
def readJNum (cs : List Char) : Option (ℚ × List Char) :=
  let signed : Bool × List Char :=
    match cs with
    | c :: t => if c = '-' then (true, t) else (false, cs)
    | [] => (false, cs)
  let neg := signed.1
  let cs1 := signed.2
  let ipart := cs1.takeWhile Char.isDigit
  if ipart = [] then none
  else if 1 < ipart.length ∧ ipart.head? = some '0' then none
  else
    let cs2 := cs1.drop ipart.length
    let step2 : Option (ℚ × List Char) :=
      match cs2 with
      | '.' :: t =>
        let fpart := t.takeWhile Char.isDigit
        if fpart = [] then none
        else
          some ((digitsToNat ipart : ℚ) +
            (digitsToNat fpart : ℚ) / ((10 : ℚ) ^ fpart.length), t.drop fpart.length)
      | _ => some ((digitsToNat ipart : ℚ), cs2)
    match step2 with
    | none => none
    | some (mant, cs3) =>
      let step3 : Option (ℚ × List Char) :=
        match cs3 with
        | c :: t =>
          if c = 'e' ∨ c = 'E' then
            let esigned : Bool × List Char :=
              match t with
              | d :: t2 => if d = '+' then (false, t2)
                  else if d = '-' then (true, t2) else (false, t)
              | [] => (false, t)
            let epart := esigned.2.takeWhile Char.isDigit
            if epart = [] then none
            else
              let e := digitsToNat epart
              let factor : ℚ := if esigned.1 then 1 / (10 : ℚ) ^ e else (10 : ℚ) ^ e
              some (mant * factor, esigned.2.drop epart.length)
          else some (mant, cs3)
        | [] => some (mant, cs3)
      match step3 with
      | none => none
      | some (v, rest) => some (if neg then -v else v, rest)

mutual

/-- One JSON value at the head of the input (leading whitespace allowed). -/
def parseJson (fuel : Nat) (cs : List Char) : Option (Json × List Char) :=
  match fuel with
  | 0 => none
  | fuel + 1 =>
    let cs := cs.dropWhile isJsonWs
    match cs with
    | [] => none
    | c :: rest =>
      if c = '"' then (readJStr fuel rest []).map (fun p => (Json.str p.1, p.2))
      else if c = lbrace then parseObjBody fuel rest true
      else if c = '[' then parseArrBody fuel rest true
      else if c = 't' then
        if rest.take 3 = ['r', 'u', 'e'] then some (Json.bool true, rest.drop 3) else none
      else if c = 'f' then
        if rest.take 4 = ['a', 'l', 's', 'e'] then some (Json.bool false, rest.drop 4) else none
      else if c = 'n' then
        if rest.take 3 = ['u', 'l', 'l'] then some (Json.null, rest.drop 3) else none
      else if c = 'N' then
        if rest.take 2 = ['a', 'N'] then some (Json.nan, rest.drop 2) else none
      else if c = 'I' then
        if rest.take 7 = ['n', 'f', 'i', 'n', 'i', 't', 'y'] then
          some (Json.infinity false, rest.drop 7)
        else none
      else if c = '-' then
        match rest with
        | 'I' :: r2 =>
          if r2.take 7 = ['n', 'f', 'i', 'n', 'i', 't', 'y'] then
            some (Json.infinity true, r2.drop 7)
          else none
        | _ => (readJNum cs).map (fun p => (Json.num p.1, p.2))
      else if c.isDigit then (readJNum cs).map (fun p => (Json.num p.1, p.2))
      else none

/-- Members of an object after the opening brace; `first` marks that no
member has been read yet (so a closing brace makes the empty object). -/
def parseObjBody (fuel : Nat) (cs : List Char) (first : Bool) :
    Option (Json × List Char) :=
  match fuel with
  | 0 => none
  | fuel + 1 =>
    let cs := cs.dropWhile isJsonWs
    match cs with
    | [] => none
    | c :: rest =>
      if first ∧ c = rbrace then some (Json.obj [], rest)
      else
        match (if c = '"' then readJStr fuel rest [] else none) with
        | none => none
        | some (key, rest2) =>
          let rest3 := rest2.dropWhile isJsonWs
          match rest3 with
          | ':' :: rest4 =>
            match parseJson fuel rest4 with
            | none => none
            | some (v, rest5) =>
              let rest6 := rest5.dropWhile isJsonWs
              match rest6 with
              | ',' :: rest7 =>
                match parseObjBody fuel rest7 false with
                | some (Json.obj fields, rest8) => some (Json.obj ((key, v) :: fields), rest8)
                | _ => none
              | d :: rest7 =>
                if d = rbrace then some (Json.obj [(key, v)], rest7) else none
              | [] => none
          | _ => none

/-- Elements of an array after the opening bracket. -/
def parseArrBody (fuel : Nat) (cs : List Char) (first : Bool) :
    Option (Json × List Char) :=
  match fuel with
  | 0 => none
  | fuel + 1 =>
    let cs := cs.dropWhile isJsonWs
    match cs with
    | [] => none
    | c :: rest =>
      if first ∧ c = ']' then some (Json.arr [], rest)
      else
        match parseJson fuel (c :: rest) with
        | none => none
        | some (v, rest2) =>
          let rest3 := rest2.dropWhile isJsonWs
          match rest3 with
          | ',' :: rest4 =>
            match parseArrBody fuel rest4 false with
            | some (Json.arr elems, rest5) => some (Json.arr (v :: elems), rest5)
            | _ => none
          | ']' :: rest4 => some (Json.arr [v], rest4)
          | _ => none

end

/-- `json.loads`: parse one value and reject trailing non-whitespace
("Extra data"), returning `none` where Python raises. -/
def jsonLoads (s : String) : Option Json :=
  match parseJson (s.length + 1) s.data with
  | none => none
  | some (v, rest) => if rest.dropWhile isJsonWs = [] then some v else none

/-- `re.search(r"\x7b.*\x7d", s)`: the leftmost match of the greedy
brace-to-brace pattern.  At each left brace the greedy `.*` runs to the
end of the line (`.` does not cross a newline) and backtracks to the last
right brace in that run; if the run has none, scanning resumes at the
next position. -/
def braceMatch : List Char → Option (List Char)
  | [] => none
  | c :: rest =>
    if c = lbrace then
      let run := rest.takeWhile (fun d => ¬ d = '\n')
      let rdrop := run.reverse.dropWhile (fun d => ¬ d = rbrace)
      if rdrop = [] then braceMatch rest
      else some (lbrace :: rdrop.reverse)
    else braceMatch rest

/-- Python `dict` lookup for parsed JSON objects (later duplicates win,
as in `json.loads`). -/
def objLookup (fields : List (String × Json)) (k : String) : Option Json :=
  fields.reverse.lookup k

/-- The fixed billing-limit message. -/
def billingMessage : String :=
  "OpenAI Billing Error: Your OpenAI account has reached its billing limit. Please add payment method or increase limits at https://platform.openai.com/account/billing"

/-- The fixed invalid-credential message. -/
def invalidKeyMessage : String :=
  "Invalid API Key: Please check your API key in backend/config.json"

/-- The dynamically typed value `parse_openai_error` returns.  Python
returns a `str` in every branch except one: when the parsed error
object's `message` key holds a non-string JSON value,
`error_info.get("message", error_str)` returns that raw value (an int,
`None`, a list, ...). -/
inductive PyValue where
  | str (s : String)
  | raw (v : Json)
deriving Repr

/-- The Python value a JSON value is returned as in this context: a JSON
string is a Python `str`, everything else comes back as the raw
object. -/
def pyOfJson : Json → PyValue
  | Json.str m => PyValue.str m
  | v => PyValue.raw v

/-- The `try` block of `parse_openai_error` (lines 32-46): look for a
brace-delimited span, parse it, and when the result is a dict whose
`error` value is a dict, return `error_info.get("message", error_str)` —
the message value when the key is present (raw if not a string), the
original string otherwise; every failure on the way also falls back to
the original string. -/
def jsonFallback (error_str : String) : PyValue :=
  match braceMatch error_str.data with
  | none => PyValue.str error_str
  | some sub =>
    match jsonLoads ⟨sub⟩ with
    | some (Json.obj fields) =>
      match objLookup fields "error" with
      | some (Json.obj efields) =>
        (match objLookup efields "message" with
         | some v => pyOfJson v
         | none => PyValue.str error_str)
      | some _ => PyValue.str error_str
      | none => PyValue.str error_str
    | some _ => PyValue.str error_str
    | none => PyValue.str error_str

/-- `parse_openai_error(error_str)` from src/backend/generator.py lines
14-46. -/
def parse_openai_error (error_str : String) : PyValue :=
  if containsStr (pylower error_str) "billing" ∨ containsStr error_str "Billing hard limit" then
    PyValue.str billingMessage
  else if containsStr (pylower error_str) "invalid_api_key" ∨
      containsStr (pylower error_str) "incorrect api key" then
    PyValue.str invalidKeyMessage
  else
    jsonFallback error_str

/-! ## Generation jobs (src/backend/generator.py, src/backend/app.py)

The worker's interactions with the outside world — the remote video
service, the downloader, and the file system — are captured by an oracle
`GenEnv`.  Each shot index is mapped to the outcome of its remote call
(raise, or return a video handle) and of its download (progress-callback
invocations, then raise or succeed).

Modelled from the spec: `utils/downloader.py` (`download_sora_video`) is
not among the available sources.  Per §6 the downloader is
`download(video_handle, output_dir, base_name, progress_callback?) ->
\x7bid, local_path\x7d`, invoking the callback zero or more times; the `id` of
the download is the id of the handle it was given.  Accordingly the
model takes the downloaded video's id to be the id returned by the
shot's remote call. -/

/-- One progress event as placed on a job's queue.  The `error` event's
`message` is the classified value from `parse_openai_error`, carried
as-is into the event dict (generator.py lines 330-338). -/
inductive ProgressEvent where
  | shot_start (shot_number total_shots : Nat) (message : String)
  | progress (shot_number total_shots : Nat) (progress : ℚ) (status message : String)
  | shot_complete (shot_number total_shots : Nat) (message : String)
  | complete (resultStatus : String) (resultError : Option String)
  | error (message : PyValue) (full_error : String)
deriving Repr

/-- One entry of `results["shots"]`. -/
structure ShotResult where
  shot_number : Nat
  video_id : String
  file_path : String
  status : String
deriving DecidableEq, Repr

/-- The `results` dictionary returned by a generation or remix job. -/
structure GenResult where
  sequence_id : Option String
  output_dir : Option String
  shots : List ShotResult
  status : String
  error : Option String
deriving DecidableEq, Repr

/-- A remote call to the video service, with exactly the parameters the
code passes (`videos.create(**video_params)` or
`videos.remix(**remix_params)`). -/
inductive RemoteCall where
  | create (model prompt size seconds : String) (input_reference : Option String)
  | remix (video_id prompt : String)
deriving DecidableEq, Repr

/-- Oracle for one shot's external interactions. -/
structure ShotOutcome where
  callResult : Except String String
  downloadProgress : List (ℚ × String)
  downloadResult : Except String Unit

/-- Oracle for a whole run. -/
structure GenEnv where
  apiKey : Option String
  outcomes : Nat → ShotOutcome
  fileExists : String → Bool
  resizedPath : String → String
  timestamp : String

/-- The remote video id produced by the shot with 0-based index `k`
(meaningful when that shot's call succeeded). -/
def idAt (env : GenEnv) (k : Nat) : String :=
  match (env.outcomes k).callResult with
  | Except.ok v => v
  | Except.error _ => ""

/-- Both the remote call and the download of 0-based shot `k` succeed. -/
def shotOk (env : GenEnv) (k : Nat) : Prop :=
  (∃ v, (env.outcomes k).callResult = Except.ok v) ∧
    (env.outcomes k).downloadResult = Except.ok ()

instance (env : GenEnv) (k : Nat) : Decidable (shotOk env k) := by
  unfold shotOk
  cases (env.outcomes k).callResult <;> cases (env.outcomes k).downloadResult <;>
    · simp
      infer_instance

/-- The loop body of `generate_video_sequence` (lines 222-320): for each
shot, emit `shot_start`, issue the create/remix call, download (emitting
`progress` events), emit `shot_complete` and record a shot result; stop
at the first raise.  Returns the events, the remote calls issued, the
accumulated shot results, and the raised error if any.  `idx` is the
0-based index of the current shot; `prev` is `previous_video` (the
handle returned by the previous create/remix call). -/
def genLoop (env : GenEnv) (allShots : List Shot) (total : Nat)
    (quality model outputDir : String) (refInput : Option String) :
    List Shot → Nat → Option String →
      List ProgressEvent × List RemoteCall × List ShotResult × Option String
  | [], _, _ => ([], [], [], none)
  | shot :: rest, idx, prev =>
    let i := idx + 1
    let prompt := build_prompt shot i allShots
    let startEv := ProgressEvent.shot_start i total
      ("Starting generation of Shot " ++ toString i ++ "...")
    let call : RemoteCall :=
      if idx = 0 then RemoteCall.create model prompt quality "12" refInput
      else RemoteCall.remix (prev.getD "") prompt
    match (env.outcomes idx).callResult with
    | Except.error e => ([startEv], [call], [], some e)
    | Except.ok vid =>
      let progEvs := (env.outcomes idx).downloadProgress.map (fun pr =>
        ProgressEvent.progress i total pr.1 pr.2
          ("Shot " ++ toString i ++ ": " ++ pr.2 ++ "... " ++ toString pr.1 ++ "%"))
      match (env.outcomes idx).downloadResult with
      | Except.error e => (startEv :: progEvs, [call], [], some e)
      | Except.ok _ =>
        let completeEv := ProgressEvent.shot_complete i total
          ("Shot " ++ toString i ++ " completed!")
        let sr : ShotResult :=
          ⟨i, vid, outputDir ++ "/shot_" ++ toString i ++ ".mp4", "completed"⟩
        let tl := genLoop env allShots total quality model outputDir refInput
          rest (idx + 1) (some vid)
        (startEv :: (progEvs ++ completeEv :: tl.1), call :: tl.2.1,
          sr :: tl.2.2.1, tl.2.2.2)

/-- The reference-image resolution for shot 1 (lines 250-269): only the
first uploaded image matters, and only when the file exists is it
resized and attached. -/
def refInputOf (env : GenEnv) (reference_images : List (Option String)) : Option String :=
  let reference_image :=
    match reference_images with
    | [] => none
    | r :: _ => r
  match reference_image with
  | some p => if env.fileExists p then some (env.resizedPath p) else none
  | none => none

/-- The body of `generate_video_sequence` after the credential check
(lines 210-340). -/
def generate_body (env : GenEnv) (shots_data : List Shot)
    (reference_images : List (Option String)) (quality model : String) :
    GenResult × List ProgressEvent × List RemoteCall :=
  let sequence_id := "sequence_" ++ env.timestamp
  let output_dir := "output/sequence_" ++ env.timestamp
  let refInput := refInputOf env reference_images
  let out := genLoop env shots_data shots_data.length quality model output_dir refInput
    shots_data 0 none
  match out.2.2.2 with
  | none =>
    (⟨some sequence_id, some output_dir, out.2.2.1, "completed", none⟩, out.1, out.2.1)
  | some e =>
    (⟨some sequence_id, some output_dir, out.2.2.1, "error", some e⟩,
      out.1 ++ [ProgressEvent.error (parse_openai_error e) e], out.2.1)

/-- `generate_video_sequence(shots_data, reference_images, progress_queue,
task_id, quality, model)` (lines 182-340), as a pure function of the
oracle: gives the returned `results` dictionary, the events placed on the
progress queue, and the remote calls issued. -/
def generate_video_sequence (env : GenEnv) (shots_data : List Shot)
    (reference_images : List (Option String)) (quality model : String) :
    GenResult × List ProgressEvent × List RemoteCall :=
  let keyMissing : Bool :=
    match env.apiKey with
    | none => true
    | some k => k = "" || pystrip k = ""
  if keyMissing then
    (⟨none, none, [], "error", some "API key not configured or is empty"⟩, [], [])
  else
    generate_body env shots_data reference_images quality model

/-- `run_generation_in_thread` (src/backend/app.py lines 153-186): run the
job, push a `complete` event carrying the result, and always push the
`None` sentinel last.  The queue is the list of items placed on the
job's progress queue, `none` being the sentinel.  The model's
`generate_video_sequence` is total, so the worker's own `except` branch
(which would emit a second `error` event) is unreachable. -/
def run_generation_in_thread (env : GenEnv) (shots_data : List Shot)
    (reference_images : List (Option String)) (quality model : String) :
    List (Option ProgressEvent) × GenResult :=
  let out := generate_video_sequence env shots_data reference_images quality model
  let result := out.1
  (out.2.1.map some ++
    [some (ProgressEvent.complete result.status result.error), none], result)

/-- The loop body of `remix_video_sequence` (lines 498-554).  Each shot
issues a remix call against `prev`; the first `prev` is the caller's
source video id, and after a successful shot `prev` becomes the
downloaded video's id (which by the downloader model is the id returned
by that shot's remix call). -/
def remixLoop (env : GenEnv) (total : Nat) (outputDir : String) :
    List Shot → Nat → String →
      List ProgressEvent × List RemoteCall × List ShotResult × Option String
  | [], _, _ => ([], [], [], none)
  | shot :: rest, idx, prev =>
    let i := idx + 1
    let prompt := build_prompt shot 2 [shot]
    let startEv := ProgressEvent.shot_start i total
      ("Starting remix of Shot " ++ toString i ++ "...")
    let call : RemoteCall := RemoteCall.remix prev prompt
    match (env.outcomes idx).callResult with
    | Except.error e => ([startEv], [call], [], some e)
    | Except.ok vid =>
      let progEvs := (env.outcomes idx).downloadProgress.map (fun pr =>
        ProgressEvent.progress i total pr.1 pr.2
          ("Shot " ++ toString i ++ ": " ++ pr.2 ++ "... " ++ toString pr.1 ++ "%"))
      match (env.outcomes idx).downloadResult with
      | Except.error e => (startEv :: progEvs, [call], [], some e)
      | Except.ok _ =>
        let completeEv := ProgressEvent.shot_complete i total
          ("Shot " ++ toString i ++ " completed!")
        let sr : ShotResult :=
          ⟨i, vid, outputDir ++ "/shot_" ++ toString i ++ ".mp4", "completed"⟩
        let tl := remixLoop env total outputDir rest (idx + 1) vid
        (startEv :: (progEvs ++ completeEv :: tl.1), call :: tl.2.1,
          sr :: tl.2.2.1, tl.2.2.2)

/-- The body of `remix_video_sequence` after the credential check. -/
def remix_body (env : GenEnv) (video_id : String) (shots_data : List Shot) :
    GenResult × List ProgressEvent × List RemoteCall :=
  let sequence_id := "sequence_" ++ env.timestamp
  let output_dir := "output/sequence_" ++ env.timestamp
  let out := remixLoop env shots_data.length output_dir shots_data 0 video_id
  match out.2.2.2 with
  | none =>
    (⟨some sequence_id, some output_dir, out.2.2.1, "completed", none⟩, out.1, out.2.1)
  | some e =>
    (⟨some sequence_id, some output_dir, out.2.2.1, "error", some e⟩,
      out.1 ++ [ProgressEvent.error (parse_openai_error e) e], out.2.1)

/-- `remix_video_sequence(video_id, shots_data, progress_queue)`
(lines 468-569). -/
def remix_video_sequence (env : GenEnv) (video_id : String) (shots_data : List Shot) :
    GenResult × List ProgressEvent × List RemoteCall :=
  let keyMissing : Bool :=
    match env.apiKey with
    | none => true
    | some k => k = "" || pystrip k = ""
  if keyMissing then
    (⟨none, none, [], "error", some "API key not configured or is empty"⟩, [], [])
  else
    remix_body env video_id shots_data

/-! ## Job registry and progress stream (src/backend/app.py) -/

/-- The two process-wide maps, `progress_queues` and `generation_results`
(app.py lines 38-40), as association lists.  A queue's content is listed
in arrival order with `none` as the sentinel. -/
structure Registry where
  progress_queues : List (String × List (Option ProgressEvent))
  generation_results : List (String × GenResult)
deriving Repr

/-- Python dict read `k in d` / `d[k]`. -/
def lookupMap {τ : Type} (m : List (String × τ)) (k : String) : Option τ :=
  m.lookup k

/-- Python `del d[k]`. -/
def deleteMap {τ : Type} (m : List (String × τ)) (k : String) : List (String × τ) :=
  m.filter (fun kv => ¬ kv.1 = k)

/-- One server-sent frame produced by `stream_progress`. -/
inductive SSEFrame where
  | dataEvent (e : ProgressEvent)
  | notFound
deriving Repr

/-- The consumer loop of `stream_progress`: forward events until the
sentinel; report whether the sentinel was reached. -/
def consumeUntilSentinel : List (Option ProgressEvent) → List ProgressEvent × Bool
  | [] => ([], false)
  | none :: _ => ([], true)
  | some e :: rest =>
    let out := consumeUntilSentinel rest
    (e :: out.1, out.2)

/-- `stream_progress(task_id)` (app.py lines 125-150): an unknown task
yields one error frame; otherwise events are forwarded until the
sentinel, after which the channel entry is deleted from the registry.
Keepalive frames (sent while the queue is empty) carry no data and are
not modelled; a queue whose sentinel never arrives keeps the consumer
in its read loop forever, so no cleanup happens and the registry is
returned unchanged. -/
def stream_progress (reg : Registry) (task_id : String) : List SSEFrame × Registry :=
  match lookupMap reg.progress_queues task_id with
  | none => ([SSEFrame.notFound], reg)
  | some q =>
    let out := consumeUntilSentinel q
    (out.1.map SSEFrame.dataEvent,
      if out.2 then
        { reg with progress_queues := deleteMap reg.progress_queues task_id }
      else reg)

/-- Response of `get_result` (app.py lines 283-290). -/
inductive ResultResponse where
  | notFound404
  | ok (r : GenResult)
deriving DecidableEq, Repr

/-- `get_result(task_id)`: read-only lookup in `generation_results`. -/
def get_result (reg : Registry) (task_id : String) : ResultResponse :=
  match lookupMap reg.generation_results task_id with
  | none => ResultResponse.notFound404
  | some r => ResultResponse.ok r

/-! ## Image resizing (src/utils/resizer.py)

Only the pixel dimensions are modelled; `PIL.Image.resize` returns an
image of exactly the requested size, and `PIL.Image.crop` returns an
image whose size is determined by the box (out-of-range areas are
padded).  `int()` on the nonnegative products is the floor; Python `//`
is floor division, `Int.fdiv`.  The `float` arithmetic of the scale is
modelled over `ℚ`; the dimension result proved about it is independent
of any rounding of the scale. -/

structure PILImage where
  width : Nat
  height : Nat
deriving DecidableEq, Repr

/-- `img.resize((w, h))`. -/
def imgResize (_img : PILImage) (w h : Nat) : PILImage := ⟨w, h⟩

/-- `img.crop((left, top, right, bottom))`: the output size is the box
size. -/
def imgCrop (_img : PILImage) (left top right bottom : Int) : PILImage :=
  ⟨(right - left).toNat, (bottom - top).toNat⟩

/-- `resize_image(image_path, target_size)` (resizer.py lines 19-47),
restricted to dimensions. -/
def resize_image (img : PILImage) (target_size : Nat × Nat) : PILImage :=
  let target_width := target_size.1
  let target_height := target_size.2
  let scale : ℚ := max ((target_width : ℚ) / (img.width : ℚ))
    ((target_height : ℚ) / (img.height : ℚ))
  let new_width : Int := ⌊(img.width : ℚ) * scale⌋
  let new_height : Int := ⌊(img.height : ℚ) * scale⌋
  let img_resized := imgResize img new_width.toNat new_height.toNat
  let left : Int := (new_width - target_width).fdiv 2
  let top : Int := (new_height - target_height).fdiv 2
  imgCrop img_resized left top (left + target_width) (top + target_height)

/-! ## Request handlers (src/backend/app.py) -/

/-- The shot-count validation of the `generate` route (lines 249-253). -/
inductive GenerateDecision where
  | noShots
  | tooManyShots
  | started
deriving DecidableEq, Repr

/-- `generate` route validation: empty shot lists and more than 3 shots
are rejected with a 400 before any job is created. -/
def generate_route_shot_check (shots_data : List Shot) : GenerateDecision :=
  if shots_data = [] then GenerateDecision.noShots
  else if shots_data.length > 3 then GenerateDecision.tooManyShots
  else GenerateDecision.started

/-- One entry of the JSON `shots` array of a remix request; each field may
be absent or null. -/
structure RemixShotJson where
  characters : Option String
  environment : Option String
  lighting : Option String
  camera_angles : Option String
  dialog : Option String
deriving DecidableEq, Repr

/-- A remix request body.  `shots` is `some l` when the JSON value is a
list (a `none` entry models a null element); absent or non-list values
are `none`, which the handler's `isinstance` check sends to the
single-shot branch either way. -/
structure RemixRequest where
  video_id : Option String
  shots : Option (List (Option RemixShotJson))
  characters : Option String
  environment : Option String
  lighting : Option String
  camera_angles : Option String
  dialog : Option String
deriving DecidableEq, Repr

/-- A normalized shot as built by the remix handler (note: no voice
field). -/
structure NormalizedShot where
  characters : String
  environment : String
  lighting : String
  camera_angles : String
  dialog : String
deriving DecidableEq, Repr

/-- `s = s or \x7b\x7d; sd = ...` normalization of one entry (lines 317-325). -/
def normalizeShot (o : Option RemixShotJson) : NormalizedShot :=
  match o with
  | none => ⟨"", "", "", "", ""⟩
  | some s =>
    ⟨s.characters.getD "", s.environment.getD "", s.lighting.getD "",
      s.camera_angles.getD "", s.dialog.getD ""⟩

/-- The validation loop over the shots array: the first entry without a
dialog aborts with the 400 response. -/
def normalizeShots : List (Option RemixShotJson) → Except Unit (List NormalizedShot)
  | [] => Except.ok []
  | s :: rest =>
    let sd := normalizeShot s
    if sd.dialog = "" then Except.error ()
    else
      match normalizeShots rest with
      | Except.error e => Except.error e
      | Except.ok tl => Except.ok (sd :: tl)

/-- Decision taken by the `remix` route (lines 293-370): which 400 it
returns, or which kind of background job it launches with which data. -/
inductive RemixDecision where
  | invalidJson
  | videoIdRequired
  | shotDialogRequired
  | dialogRequired
  | multiShotJob (video_id : String) (shots : List NormalizedShot)
  | singleShotJob (video_id : String) (shot : NormalizedShot)
deriving DecidableEq, Repr

/-- The single-shot fallback branch (lines 345-360): top-level fields
only; `shots` is not consulted. -/
def remix_route_single (d : RemixRequest) (video_id : String) : RemixDecision :=
  let shot_data : NormalizedShot :=
    ⟨d.characters.getD "", d.environment.getD "", d.lighting.getD "",
      d.camera_angles.getD "", d.dialog.getD ""⟩
  if shot_data.dialog = "" then RemixDecision.dialogRequired
  else RemixDecision.singleShotJob video_id shot_data

/-- The `remix` route handler. -/
def remix_route (data : Option RemixRequest) : RemixDecision :=
  match data with
  | none => RemixDecision.invalidJson
  | some d =>
    let video_id := d.video_id.getD ""
    if video_id = "" then RemixDecision.videoIdRequired
    else
      match d.shots with
      | some l =>
        if 1 ≤ l.length ∧ l.length ≤ 3 then
          match normalizeShots l with
          | Except.error _ => RemixDecision.shotDialogRequired
          | Except.ok ns => RemixDecision.multiShotJob video_id ns
        else remix_route_single d video_id
      | none => remix_route_single d video_id

/-! ## Event counting helpers -/

def evIsShotStart : ProgressEvent → Bool
  | ProgressEvent.shot_start _ _ _ => true
  | _ => false

def evIsShotComplete : ProgressEvent → Bool
  | ProgressEvent.shot_complete _ _ _ => true
  | _ => false

def evIsComplete : ProgressEvent → Bool
  | ProgressEvent.complete _ _ => true
  | _ => false

def evIsError : ProgressEvent → Bool
  | ProgressEvent.error _ _ => true
  | _ => false

/-- Lift an event predicate to queue items; the sentinel satisfies none. -/
def qPred (p : ProgressEvent → Bool) : Option ProgressEvent → Bool
  | some e => p e
  | none => false

/-- Queue items that are the sentinel. -/
def qIsSentinel : Option ProgressEvent → Bool
  | none => true
  | some _ => false

/-! ## Generic lemmas about infixes and `joinParts` -/

/-- An infix of `a ++ b` is an infix of `a`, an infix of `b`, or splits into a
nonempty suffix of `a` glued to a nonempty prefix of `b`. -/
theorem infix_append_cases {α : Type} {w a b : List α} (h : w <:+: a ++ b) :
    w <:+: a ∨ w <:+: b ∨
      ∃ w₁ w₂, w = w₁ ++ w₂ ∧ w₁ ≠ [] ∧ w₂ ≠ [] ∧ w₁ <:+ a ∧ w₂ <+: b := by
  obtain ⟨s, t, hst⟩ := h
  have ha : a = ((s ++ w) ++ t).take a.length := by
    rw [List.append_assoc] at hst ⊢
    rw [hst]
    simp
  have hb : b = ((s ++ w) ++ t).drop a.length := by
    rw [List.append_assoc] at hst ⊢
    rw [hst]
    simp
  by_cases h1 : s.length + w.length ≤ a.length
  · left
    refine ⟨s, t.take (a.length - (s.length + w.length)), ?_⟩
    have key : a = s ++ w ++ t.take (a.length - (s.length + w.length)) := by
      conv_lhs => rw [ha]
      rw [List.take_append_eq_append_take,
        List.take_of_length_le (l := s ++ w) (by simp; omega)]
      simp [List.length_append]
    exact key.symm
  · by_cases h2 : a.length ≤ s.length
    · right; left
      refine ⟨s.drop a.length, t, ?_⟩
      rw [hb, List.drop_append_eq_append_drop, List.drop_append_eq_append_drop]
      have hz : a.length - s.length = 0 := by omega
      have hz2 : a.length - (s ++ w).length = 0 := by simp; omega
      rw [hz, hz2]
      simp
    · right; right
      refine ⟨w.take (a.length - s.length), w.drop (a.length - s.length),
        (List.take_append_drop _ _).symm, ?_, ?_, ?_, ?_⟩
      · intro hnil
        have h3 := congrArg List.length hnil
        rw [List.length_take] at h3
        rcases Nat.min_eq_zero_iff.mp h3 with h4 | h4 <;> omega
      · intro hnil
        have := congrArg List.length hnil
        simp at this
        omega
      · refine ⟨s, ?_⟩
        have hz : a.length - (s ++ w).length = 0 := by simp; omega
        have key : a = s ++ w.take (a.length - s.length) := by
          conv_lhs => rw [ha]
          rw [List.take_append_eq_append_take, List.take_append_eq_append_take]
          rw [hz, List.take_of_length_le (l := s) (by omega)]
          simp
        exact key.symm
      · refine ⟨t, ?_⟩
        rw [hb, List.drop_append_eq_append_drop, List.drop_append_eq_append_drop]
        have hz : a.length - (s ++ w).length = 0 := by simp; omega
        rw [hz, List.drop_of_length_le (l := s) (by omega)]
        simp

/-- A member of the part list is an infix of the joined string. -/
theorem joinParts_infix_of_mem {l : List String} {p : String} (hp : p ∈ l) :
    p.data <:+: (joinParts l).data := by
  induction l with
  | nil => cases hp
  | cons x xs ih =>
    cases hp with
    | head =>
      cases xs with
      | nil => simp [joinParts]
      | cons y ys =>
        show p.data <:+: (p ++ ". " ++ joinParts (y :: ys)).data
        refine ⟨[], (". " ++ joinParts (y :: ys)).data, ?_⟩
        simp
    | tail _ h =>
      have h2 := ih h
      cases xs with
      | nil => cases h
      | cons y ys =>
        show p.data <:+: (x ++ ". " ++ joinParts (y :: ys)).data
        obtain ⟨u, v, huv⟩ := h2
        refine ⟨(x ++ ". ").data ++ u, v, ?_⟩
        simp [huv]

/-- A pattern containing neither `'.'` nor `' '` that occurs in the joined
string must occur in one of its parts. -/
theorem joinParts_infix_mem {w : List Char} (hw : w ≠ [])
    (hdot : '.' ∉ w) (hsp : ' ' ∉ w) :
    ∀ l : List String, w <:+: (joinParts l).data → ∃ p ∈ l, w <:+: p.data := by
  intro l
  induction l with
  | nil =>
    intro h
    simp [joinParts] at h
    exact absurd h hw
  | cons x xs ih =>
    intro h
    cases xs with
    | nil =>
      exact ⟨x, List.mem_singleton_self x, h⟩
    | cons y ys =>
      have hexp : (joinParts (x :: y :: ys)).data
          = x.data ++ ('.' :: ' ' :: (joinParts (y :: ys)).data) := by
        show (x ++ ". " ++ joinParts (y :: ys)).data = _
        simp
      rw [hexp] at h
      rcases infix_append_cases h with hx | hrest | ⟨w₁, w₂, hw12, _, hw₂ne, _, hpre⟩
      · exact ⟨x, List.mem_cons_self x _, hx⟩
      · rcases infix_append_cases (a := ['.', ' ']) hrest with hsep | htail |
          ⟨v₁, v₂, hv12, hv₁ne, _, hsuf, _⟩
        · exfalso
          have hsub : w ⊆ ['.', ' '] := hsep.subset
          cases w with
          | nil => exact hw rfl
          | cons c cs =>
            have : c ∈ ['.', ' '] := hsub (List.mem_cons_self c cs)
            simp at this
            rcases this with h1 | h1
            · exact hdot (h1 ▸ List.mem_cons_self c cs)
            · exact hsp (h1 ▸ List.mem_cons_self c cs)
        · obtain ⟨p, hp, hp2⟩ := ih htail
          exact ⟨p, List.mem_cons_of_mem x hp, hp2⟩
        · exfalso
          have hsub : v₁ ⊆ ['.', ' '] := hsuf.sublist.subset
          cases v₁ with
          | nil => exact hv₁ne rfl
          | cons c cs =>
            have hcmem : c ∈ ['.', ' '] := hsub (List.mem_cons_self c cs)
            have hcw : c ∈ w := by
              rw [hv12]
              exact List.mem_append_left _ (List.mem_cons_self c cs)
            simp at hcmem
            rcases hcmem with h1 | h1
            · exact hdot (h1 ▸ hcw)
            · exact hsp (h1 ▸ hcw)
      · exfalso
        cases w₂ with
        | nil => exact hw₂ne rfl
        | cons c cs =>
          have hc : c = '.' := by
            obtain ⟨r, hr⟩ := hpre
            have : ('.' :: ' ' :: (joinParts (y :: ys)).data).head? = some c := by
              rw [← hr]
              simp
            simpa using this.symm
          have hcw : c ∈ w := by
            rw [hw12]
            exact List.mem_append_right _ (List.mem_cons_self c cs)
          exact hdot (hc ▸ hcw)

/-- A nonempty pattern occurring in `a ++ b` but in neither `a` nor `b`
must contain the last element of `a`. -/
theorem infix_append_boundary {α : Type} {w a b : List α}
    (ha : ¬ w <:+: a) (hb : ¬ w <:+: b) (h : w <:+: a ++ b) :
    ∃ x, a.getLast? = some x ∧ x ∈ w := by
  rcases infix_append_cases h with h1 | h1 | ⟨w₁, w₂, hw12, hw₁ne, _, hsuf, _⟩
  · exact absurd h1 ha
  · exact absurd h1 hb
  · obtain ⟨s, hs⟩ := hsuf
    refine ⟨w₁.getLast hw₁ne, ?_, ?_⟩
    · rw [← hs, List.getLast?_append_of_ne_nil _ hw₁ne]
      exact (List.getLast?_eq_getLast _ hw₁ne)
    · have hmem : w₁.getLast hw₁ne ∈ w₁ := List.getLast_mem hw₁ne
      rw [hw12]
      exact List.mem_append_left _ hmem

/-- `pystrip s` is an infix of `s`, hence patterns found in the stripped
string are found in the original. -/
theorem pystrip_infix_self (s : String) : (pystrip s).data <:+: s.data := by
  unfold pystrip
  have h1 : s.data.dropWhile isPySpace <:+ s.data := List.dropWhile_suffix _
  have h2 : ((s.data.dropWhile isPySpace).reverse.dropWhile isPySpace).reverse
      <+: s.data.dropWhile isPySpace := by
    rw [← List.reverse_suffix]
    simp [List.dropWhile_suffix]
  exact (h2.isInfix).trans h1.isInfix


/-! ## More infix tooling for the prompt claims -/

/-- A string is contained in any part of a join it occurs in. -/
theorem contains_of_part {l : List String} {p : String} (hp : p ∈ l) {pat : String}
    (hpat : pat.data <:+: p.data) : containsStr (joinParts l) pat :=
  hpat.trans (joinParts_infix_of_mem hp)

/-- Right-hand sibling of `infix_append_boundary`: a pattern occurring in
`a ++ b` but in neither half contains the head of `b`. -/
theorem infix_append_boundary_right {α : Type} {w a b : List α}
    (ha : ¬ w <:+: a) (hb : ¬ w <:+: b) (h : w <:+: a ++ b) :
    ∃ x, b.head? = some x ∧ x ∈ w := by
  rcases infix_append_cases h with h1 | h1 | ⟨w₁, w₂, hw12, _, hw₂ne, _, hpre⟩
  · exact absurd h1 ha
  · exact absurd h1 hb
  · obtain ⟨t, ht⟩ := hpre
    cases w₂ with
    | nil => exact absurd rfl hw₂ne
    | cons c cs =>
      refine ⟨c, ?_, ?_⟩
      · rw [← ht]
        rfl
      · rw [hw12]
        exact List.mem_append_right _ (List.mem_cons_self c cs)

/-- Killing an infix across an append when the last element of the left
half cannot occur in the pattern. -/
theorem not_infix_append_left {α : Type} {w a b : List α} {c : α}
    (ha : ¬ w <:+: a) (hb : ¬ w <:+: b) (hc : a.getLast? = some c) (hcw : c ∉ w) :
    ¬ w <:+: a ++ b := by
  intro h
  rcases infix_append_boundary ha hb h with ⟨x, hx1, hx2⟩
  rw [hc] at hx1
  injection hx1 with hx
  exact hcw (hx ▸ hx2)

/-- Killing an infix across an append when the head of the right half
cannot occur in the pattern. -/
theorem not_infix_append_right {α : Type} {w a b : List α} {c : α}
    (ha : ¬ w <:+: a) (hb : ¬ w <:+: b) (hc : b.head? = some c) (hcw : c ∉ w) :
    ¬ w <:+: a ++ b := by
  intro h
  rcases infix_append_boundary_right ha hb h with ⟨x, hx1, hx2⟩
  rw [hc] at hx1
  injection hx1 with hx
  exact hcw (hx ▸ hx2)

/-- A string sits inside `pre ++ s`. -/
theorem str_infix_appendl (pre s : String) : s.data <:+: (pre ++ s).data :=
  ⟨pre.data, [], by simp⟩

/-- A string sits inside `pre ++ s ++ suf`. -/
theorem str_infix_append3 (pre s suf : String) : s.data <:+: (pre ++ s ++ suf).data :=
  ⟨pre.data, suf.data, by simp⟩

/-- A join with a nonempty part is nonempty. -/
theorem joinParts_ne_empty {l : List String} {p : String} (hp : p ∈ l) (hpne : p ≠ "") :
    joinParts l ≠ "" := by
  intro h
  have h2 : (joinParts l).data = [] := by
    rw [h]
  obtain ⟨s, t, hst⟩ := joinParts_infix_of_mem hp
  rw [h2] at hst
  have h3 := List.append_eq_nil.mp hst
  have h4 : p.data = [] := (List.append_eq_nil.mp h3.1).2
  exact hpne (String.ext h4)

/-! ## Claim C4 -/

/-- C4: for a remix shot (`shot_number ≥ 2`), each of the five fallback
fields that is blank on the current shot but non-blank on shot 1 makes
the built prompt contain shot 1's (stripped) value for that field. -/
theorem C4_blank_fallback (shots : List Shot) (s1 shot : Shot) (i : Nat)
    (h1 : shots.head? = some s1) (hi : 2 ≤ i) :
    (pystrip shot.characters = "" → pystrip s1.characters ≠ "" →
      containsStr (build_prompt shot i shots) (pystrip s1.characters)) ∧
    (pystrip shot.environment = "" → pystrip s1.environment ≠ "" →
      containsStr (build_prompt shot i shots) (pystrip s1.environment)) ∧
    (pystrip shot.lighting = "" → pystrip s1.lighting ≠ "" →
      containsStr (build_prompt shot i shots) (pystrip s1.lighting)) ∧
    (pystrip shot.camera_angles = "" → pystrip s1.camera_angles ≠ "" →
      containsStr (build_prompt shot i shots) (pystrip s1.camera_angles)) ∧
    (pystrip shot.voice = "" → pystrip s1.voice ≠ "" →
      containsStr (build_prompt shot i shots) (pystrip s1.voice)) := by
  cases shots with
  | nil => simp at h1
  | cons a l =>
    have ha : a = s1 := by simpa using h1
    subst ha
    have hgt : i > 1 := hi
    refine ⟨?_, ?_, ?_, ?_, ?_⟩ <;> intro hb hnb
    · unfold build_prompt
      rw [if_pos hgt]
      dsimp only
      refine contains_of_part ?_ (str_infix_appendl "The same " (pystrip a.characters))
      simp [hb, hnb]
    · unfold build_prompt
      rw [if_pos hgt]
      dsimp only
      refine contains_of_part ?_ (str_infix_appendl "in the same " (pystrip a.environment))
      simp [hb, hnb]
    · unfold build_prompt
      rw [if_pos hgt]
      dsimp only
      refine contains_of_part (p := pystrip a.lighting) ?_ (List.infix_refl _)
      simp [hb, hnb]
    · unfold build_prompt
      rw [if_pos hgt]
      dsimp only
      refine contains_of_part (p := pystrip a.camera_angles) ?_ (List.infix_refl _)
      simp [hb, hnb]
    · unfold build_prompt
      rw [if_pos hgt]
      dsimp only
      refine contains_of_part ?_ (str_infix_append3 "Use the same speaking voice: "
        (pystrip a.voice) ". Maintain identical microphone tone and recording chain.")
      simp [hb, hnb]

/-- Witness for C4: shot 2 leaves everything blank, shot 1 fills all five
fields; each value reappears in shot 2's prompt. -/
theorem C4_blank_fallback_witness :
    containsStr (build_prompt ⟨"", "", "", "", "Bye", ""⟩ 2
        [⟨"a knight", "a castle", "soft glow", "wide shot", "Hello", "deep bass"⟩,
          ⟨"", "", "", "", "Bye", ""⟩])
      (pystrip "a knight") ∧
    containsStr (build_prompt ⟨"", "", "", "", "Bye", ""⟩ 2
        [⟨"a knight", "a castle", "soft glow", "wide shot", "Hello", "deep bass"⟩,
          ⟨"", "", "", "", "Bye", ""⟩])
      (pystrip "deep bass") :=
  ⟨((C4_blank_fallback
      [⟨"a knight", "a castle", "soft glow", "wide shot", "Hello", "deep bass"⟩,
        ⟨"", "", "", "", "Bye", ""⟩]
      ⟨"a knight", "a castle", "soft glow", "wide shot", "Hello", "deep bass"⟩
      ⟨"", "", "", "", "Bye", ""⟩ 2 rfl (by decide)).1 (by decide) (by decide)),
    ((C4_blank_fallback
      [⟨"a knight", "a castle", "soft glow", "wide shot", "Hello", "deep bass"⟩,
        ⟨"", "", "", "", "Bye", ""⟩]
      ⟨"a knight", "a castle", "soft glow", "wide shot", "Hello", "deep bass"⟩
      ⟨"", "", "", "", "Bye", ""⟩ 2 rfl (by decide)).2.2.2.2 (by decide) (by decide))⟩

/-! ## Claim C5 -/

/-- C5 counterexample: the claim fails in both directions.  A shot-1 input
whose characters field itself says "the same dog" produces "the same" in
the shot-1 prompt; and the all-blank remix shot's prompt says "exact
same", never the literal "the same". -/
theorem C5_counterexample :
    containsStr (build_prompt ⟨"the same dog", "", "", "", "", ""⟩ 1 []) "the same" ∧
    ¬ containsStr
      (build_prompt ⟨"", "", "", "", "", ""⟩ 2 [⟨"", "", "", "", "", ""⟩]) "the same" := by
  constructor <;> decide

/-- C5 (amended): for shot inputs none of whose fields contains the word
"same", the shot-1 prompt never contains "same" (in particular not
"the same"); and every remix prompt (`shot_number ≥ 2`) contains the
consistency word "same" — though not always the exact phrase
"the same". -/
theorem C5_amended (shot : Shot) (i : Nat) (shots : List Shot) :
    (¬ containsStr shot.characters "same" → ¬ containsStr shot.environment "same" →
     ¬ containsStr shot.lighting "same" → ¬ containsStr shot.camera_angles "same" →
     ¬ containsStr shot.dialog "same" → ¬ containsStr shot.voice "same" →
     ¬ containsStr (build_prompt shot 1 shots) "same") ∧
    (2 ≤ i → containsStr (build_prompt shot i shots) "same") := by
  constructor
  · intro h1 h2 h3 h4 h5 h6 hcon
    unfold build_prompt at hcon
    rw [if_neg (by decide)] at hcon
    dsimp only at hcon
    obtain ⟨p, hp, hinf⟩ :=
      joinParts_infix_mem (w := "same".data) (by decide) (by decide) (by decide) _ hcon
    simp only [List.mem_append] at hp
    rcases hp with ((((hp | hp) | hp) | hp) | hp) | hp
    · by_cases hc : shot.characters = ""
      · simp [hc] at hp
      · simp [hc] at hp
        exact h1 (hp ▸ hinf)
    · by_cases hc : shot.environment = ""
      · simp [hc] at hp
      · simp [hc] at hp
        rw [hp, String.data_append] at hinf
        exact not_infix_append_left (c := ' ') (by decide) h2 (by decide) (by decide) hinf
    · by_cases hc : shot.lighting = ""
      · simp [hc] at hp
      · simp [hc] at hp
        exact h3 (hp ▸ hinf)
    · by_cases hc : shot.camera_angles = ""
      · simp [hc] at hp
      · simp [hc] at hp
        exact h4 (hp ▸ hinf)
    · by_cases hc : shot.dialog = ""
      · simp [hc] at hp
      · simp [hc] at hp
        rw [hp, String.data_append, String.data_append] at hinf
        refine not_infix_append_right (c := Char.ofNat 39) ?_ (by decide) (by decide)
          (by decide) hinf
        exact not_infix_append_left (c := Char.ofNat 39) (by decide) h5 (by decide) (by decide)
    · by_cases hc : pystrip shot.voice = ""
      · simp [hc] at hp
      · simp [hc] at hp
        rw [hp, String.data_append, String.data_append] at hinf
        have hv : ¬ "same".data <:+: (pystrip shot.voice).data :=
          fun hx => h6 (hx.trans (pystrip_infix_self shot.voice))
        refine not_infix_append_right (c := '.') ?_ (by decide) (by decide) (by decide) hinf
        exact not_infix_append_left (c := ' ') (by decide) hv (by decide) (by decide)
  · intro hi
    unfold build_prompt
    rw [if_pos (by omega)]
    dsimp only
    refine contains_of_part
      (p := "maintaining exact same appearance, clothing, tone, and speaking style from previous shot")
      ?_ (by decide)
    simp

/-- Witness for C5 (amended), on a shot with no "same" anywhere. -/
theorem C5_amended_witness :
    ¬ containsStr
      (build_prompt ⟨"a knight", "a castle", "soft glow", "wide shot", "Hello", "deep bass"⟩
        1 []) "same" ∧
    containsStr
      (build_prompt ⟨"a knight", "a castle", "soft glow", "wide shot", "Hello", "deep bass"⟩
        2 []) "same" :=
  ⟨(C5_amended ⟨"a knight", "a castle", "soft glow", "wide shot", "Hello", "deep bass"⟩ 1 []).1
      (by decide) (by decide) (by decide) (by decide) (by decide) (by decide),
    (C5_amended ⟨"a knight", "a castle", "soft glow", "wide shot", "Hello", "deep bass"⟩ 2 []).2
      (by decide)⟩

/-! ## Claim C6 -/

/-- C6: a shot whose five visual/voice fields are all blank but whose
dialog is non-empty still yields a non-empty prompt, in the shot-1
branch as well as in every remix branch. -/
theorem C6_dialog_only_nonempty (shot : Shot) (shots : List Shot) (n : Nat)
    (hc : pystrip shot.characters = "") (he : pystrip shot.environment = "")
    (hl : pystrip shot.lighting = "") (hca : pystrip shot.camera_angles = "")
    (hv : pystrip shot.voice = "") (hd : shot.dialog ≠ "") :
    build_prompt shot n shots ≠ "" := by
  by_cases hn : n > 1
  · unfold build_prompt
    rw [if_pos hn]
    dsimp only
    refine joinParts_ne_empty
      (p := "maintaining exact same appearance, clothing, tone, and speaking style from previous shot")
      ?_ (by decide)
    simp
  · unfold build_prompt
    rw [if_neg hn]
    dsimp only
    refine joinParts_ne_empty (p := "\x27" ++ shot.dialog ++ "\x27") ?_ ?_
    · simp [hd]
    · intro hq
      have hq2 := congrArg String.data hq
      simp [String.data_append] at hq2

/-- Witness for C6 at a dialog-only shot, in both branches. -/
theorem C6_dialog_only_nonempty_witness :
    build_prompt ⟨"", "", "", "", "Only line", ""⟩ 1 [] ≠ "" ∧
    build_prompt ⟨"", "", "", "", "Only line", ""⟩ 2 [] ≠ "" :=
  ⟨C6_dialog_only_nonempty ⟨"", "", "", "", "Only line", ""⟩ [] 1
      rfl rfl rfl rfl rfl (by decide),
    C6_dialog_only_nonempty ⟨"", "", "", "", "Only line", ""⟩ [] 2
      rfl rfl rfl rfl rfl (by decide)⟩

/-! ## Registry and stream lemmas -/

/-- A queue containing the sentinel drives the consumer to the break. -/
theorem consume_saw {q : List (Option ProgressEvent)} (h : none ∈ q) :
    (consumeUntilSentinel q).2 = true := by
  induction q with
  | nil => cases h
  | cons o rest ih =>
    cases o with
    | none => rfl
    | some e =>
      have h2 : none ∈ rest := by
        simp at h
        exact h
      simp [consumeUntilSentinel, ih h2]

/-- Deleting a key removes it from lookups. -/
theorem lookup_delete {τ : Type} (m : List (String × τ)) (k : String) :
    lookupMap (deleteMap m k) k = none := by
  induction m with
  | nil => rfl
  | cons kv rest ih =>
    show lookupMap (List.filter _ (kv :: rest)) k = none
    rw [List.filter_cons]
    by_cases h : kv.1 = k
    · have hc : (decide ¬ kv.1 = k) = false := by simp [h]
      rw [hc]
      simpa [deleteMap] using ih
    · have hc : (decide ¬ kv.1 = k) = true := by simp [h]
      rw [hc]
      obtain ⟨k1, v1⟩ := kv
      have hbk : (k == k1) = false := by
        simp only [beq_eq_false_iff_ne]
        exact fun he => h he.symm
      show List.lookup k ((k1, v1) :: _) = none
      simp only [List.lookup, hbk]
      simpa [deleteMap, lookupMap] using ih

/-! ## Claim C7 -/

/-- C7: after the stream consumer for a job observes the `None` sentinel,
`progress_queues` no longer contains the job's entry, while its
`generation_results` entry is unchanged and still retrievable through
the result endpoint. -/
theorem C7_sentinel_cleanup (reg : Registry) (task_id : String)
    (q : List (Option ProgressEvent))
    (hq : lookupMap reg.progress_queues task_id = some q) (hs : none ∈ q) :
    lookupMap (stream_progress reg task_id).2.progress_queues task_id = none ∧
    (stream_progress reg task_id).2.generation_results = reg.generation_results ∧
    get_result (stream_progress reg task_id).2 task_id = get_result reg task_id := by
  unfold stream_progress
  rw [hq]
  simp [consume_saw hs, lookup_delete, get_result]

/-- Witness for C7 at a concrete one-job registry. -/
theorem C7_sentinel_cleanup_witness :
    lookupMap (stream_progress
      ⟨[("t1", [some (ProgressEvent.shot_start 1 1 "go"), none])],
        [("t1", ⟨some "s", some "o", [], "completed", none⟩)]⟩
      "t1").2.progress_queues "t1" = none ∧
    (stream_progress
      ⟨[("t1", [some (ProgressEvent.shot_start 1 1 "go"), none])],
        [("t1", ⟨some "s", some "o", [], "completed", none⟩)]⟩
      "t1").2.generation_results =
      [("t1", ⟨some "s", some "o", [], "completed", none⟩)] ∧
    get_result (stream_progress
      ⟨[("t1", [some (ProgressEvent.shot_start 1 1 "go"), none])],
        [("t1", ⟨some "s", some "o", [], "completed", none⟩)]⟩
      "t1").2 "t1" =
      get_result ⟨[("t1", [some (ProgressEvent.shot_start 1 1 "go"), none])],
        [("t1", ⟨some "s", some "o", [], "completed", none⟩)]⟩ "t1" :=
  C7_sentinel_cleanup _ "t1" [some (ProgressEvent.shot_start 1 1 "go"), none]
    rfl (by simp)

/-! ## Claim C9 -/

/-- C9: `resize_image` always yields an image of exactly the target
dimensions, whatever the input aspect ratio and whatever the integer
truncation did to the intermediate resize: the crop box alone fixes the
output size. -/
theorem C9_resize_dimensions (img : PILImage) (W H : Nat)
    (hw : 0 < img.width) (hh : 0 < img.height) (hW : 1 ≤ W) (hH : 1 ≤ H) :
    (resize_image img (W, H)).width = W ∧ (resize_image img (W, H)).height = H := by
  have h : resize_image img (W, H) = ⟨W, H⟩ := by
    unfold resize_image imgCrop imgResize
    dsimp only
    congr 1 <;> omega
  rw [h]
  exact ⟨rfl, rfl⟩

/-- Witness for C9: a 5×3 image squeezed to 4×2 (the truncation case). -/
theorem C9_resize_dimensions_witness :
    (resize_image ⟨5, 3⟩ (4, 2)).width = 4 ∧ (resize_image ⟨5, 3⟩ (4, 2)).height = 2 :=
  C9_resize_dimensions ⟨5, 3⟩ 4 2 (by decide) (by decide) (by decide) (by decide)

/-! ## Claim C10 -/

/-- C10: a remix submission whose `shots` value is a list of length 0 or
more than 3 falls through to the single-shot branch: it is rejected only
when the top-level dialog is blank, and otherwise launches a single
remix job built from the top-level fields, ignoring the shots list. -/
theorem C10_remix_shots_fallthrough (d : RemixRequest) (v : String)
    (l : List (Option RemixShotJson)) (hv : d.video_id = some v) (hvne : v ≠ "")
    (hl : d.shots = some l) (hlen : l.length = 0 ∨ 3 < l.length) :
    (d.dialog.getD "" = "" → remix_route (some d) = RemixDecision.dialogRequired) ∧
    (d.dialog.getD "" ≠ "" →
      remix_route (some d) = RemixDecision.singleShotJob v
        ⟨d.characters.getD "", d.environment.getD "", d.lighting.getD "",
          d.camera_angles.getD "", d.dialog.getD ""⟩) := by
  have hcond : ¬ (1 ≤ l.length ∧ l.length ≤ 3) := by omega
  constructor <;> intro hd <;>
    simp [remix_route, hv, hvne, hl, hcond, remix_route_single, hd]

/-- Witness for C10: a 4-entry shots list with a top-level dialog starts a
single-shot job. -/
theorem C10_remix_shots_fallthrough_witness :
    remix_route (some ⟨some "video_abc", some [none, none, none, none],
      none, none, none, none, some "Hi"⟩) =
      RemixDecision.singleShotJob "video_abc" ⟨"", "", "", "", "Hi"⟩ :=
  (C10_remix_shots_fallthrough
    ⟨some "video_abc", some [none, none, none, none], none, none, none, none, some "Hi"⟩
    "video_abc" [none, none, none, none] rfl (by decide) rfl (by decide)).2 (by decide)

/-! ## Claim C8 -/

/-- The redundant second disjunct of the billing test is subsumed by the
first. -/
theorem hardLimit_implies_billing {s : String}
    (h : containsStr s "Billing hard limit") : containsStr (pylower s) "billing" := by
  unfold containsStr pylower at *
  have h2 := h.map Char.toLower
  have h3 : "billing".data <:+: ("Billing hard limit".data.map Char.toLower) := by decide
  exact h3.trans h2

/-- When the brace span parses to an object whose `error` field is an
object carrying a `message` key, the fallback returns that message
value — as a string when it is one, raw otherwise. -/
theorem jsonFallback_success {s : String} {sub : List Char}
    {fields efields : List (String × Json)} {v : Json}
    (hbm : braceMatch s.data = some sub)
    (hjl : jsonLoads ⟨sub⟩ = some (Json.obj fields))
    (he : objLookup fields "error" = some (Json.obj efields))
    (hm : objLookup efields "message" = some v) :
    jsonFallback s = pyOfJson v := by
  unfold jsonFallback
  rw [hbm]
  dsimp only
  rw [hjl]
  dsimp only
  rw [he]
  dsimp only
  rw [hm]

/-- The fallback either returns the input string unchanged or returns
the `error.message` value of the parsed brace span. -/
theorem jsonFallback_cases (s : String) :
    jsonFallback s = PyValue.str s ∨
      ∃ sub fields efields v, braceMatch s.data = some sub ∧
        jsonLoads ⟨sub⟩ = some (Json.obj fields) ∧
        objLookup fields "error" = some (Json.obj efields) ∧
        objLookup efields "message" = some v ∧ jsonFallback s = pyOfJson v := by
  unfold jsonFallback
  rcases hbm : braceMatch s.data with _ | sub
  · exact Or.inl rfl
  dsimp only
  rcases hjl : jsonLoads ⟨sub⟩ with _ | v
  · exact Or.inl rfl
  cases v with
  | obj fields =>
    dsimp only
    rcases he : objLookup fields "error" with _ | ev
    · exact Or.inl rfl
    cases ev with
    | obj efields =>
      dsimp only
      rcases hm : objLookup efields "message" with _ | mv
      · exact Or.inl rfl
      · exact Or.inr ⟨sub, fields, efields, mv, rfl, hjl, he, hm, rfl⟩
    | null => exact Or.inl rfl
    | bool b => exact Or.inl rfl
    | num n => exact Or.inl rfl
    | nan => exact Or.inl rfl
    | infinity b => exact Or.inl rfl
    | str m2 => exact Or.inl rfl
    | arr xs => exact Or.inl rfl
  | null => exact Or.inl rfl
  | bool b => exact Or.inl rfl
  | num n => exact Or.inl rfl
  | nan => exact Or.inl rfl
  | infinity b => exact Or.inl rfl
  | str m2 => exact Or.inl rfl
  | arr xs => exact Or.inl rfl

/-- C8 (amended): `parse_openai_error` classifies by substring matching —
billing first, then credentials; after that, when the greedy
first-brace-to-last-brace span parses as a JSON object whose `error`
field is an object carrying a `message` key, that message value is
returned (the string itself when it is a string, the raw non-string
value otherwise, as `dict.get` hands it back); in every remaining case
the original string is returned unchanged. -/
theorem C8_amended (s : String) :
    (containsStr (pylower s) "billing" →
      parse_openai_error s = PyValue.str billingMessage) ∧
    (¬ containsStr (pylower s) "billing" →
      containsStr (pylower s) "invalid_api_key" ∨ containsStr (pylower s) "incorrect api key" →
      parse_openai_error s = PyValue.str invalidKeyMessage) ∧
    (∀ sub fields efields v,
      ¬ containsStr (pylower s) "billing" →
      ¬ containsStr (pylower s) "invalid_api_key" →
      ¬ containsStr (pylower s) "incorrect api key" →
      braceMatch s.data = some sub →
      jsonLoads ⟨sub⟩ = some (Json.obj fields) →
      objLookup fields "error" = some (Json.obj efields) →
      objLookup efields "message" = some v →
      parse_openai_error s = pyOfJson v) ∧
    (¬ containsStr (pylower s) "billing" →
      ¬ containsStr (pylower s) "invalid_api_key" →
      ¬ containsStr (pylower s) "incorrect api key" →
      parse_openai_error s = PyValue.str s ∨
        ∃ sub fields efields v, braceMatch s.data = some sub ∧
          jsonLoads ⟨sub⟩ = some (Json.obj fields) ∧
          objLookup fields "error" = some (Json.obj efields) ∧
          objLookup efields "message" = some v ∧
          parse_openai_error s = pyOfJson v) := by
  refine ⟨?_, ?_, ?_, ?_⟩
  · intro hb
    unfold parse_openai_error
    rw [if_pos (Or.inl hb)]
  · intro hnb hk
    unfold parse_openai_error
    rw [if_neg (fun h => h.elim hnb (fun hh => hnb (hardLimit_implies_billing hh))),
      if_pos hk]
  · intro sub fields efields v hnb hk1 hk2 hbm hjl he hm
    unfold parse_openai_error
    rw [if_neg (fun h => h.elim hnb (fun hh => hnb (hardLimit_implies_billing hh))),
      if_neg (fun h => h.elim hk1 hk2)]
    exact jsonFallback_success hbm hjl he hm
  · intro hnb hk1 hk2
    unfold parse_openai_error
    rw [if_neg (fun h => h.elim hnb (fun hh => hnb (hardLimit_implies_billing hh))),
      if_neg (fun h => h.elim hk1 hk2)]
    exact jsonFallback_cases s

/-- Witness for C8 (amended): a provider message carrying an embedded
error object yields its string message, and a non-string message (here
the number 5) is returned as the raw value, as in Python. -/
theorem C8_amended_witness :
    parse_openai_error
      "Error code: 400 - \x7b\"error\": \x7b\"message\": \"hi there\"\x7d\x7d" =
      PyValue.str "hi there" ∧
    parse_openai_error
      "Error code: 400 - \x7b\"error\": \x7b\"message\": 5\x7d\x7d" =
      PyValue.raw (Json.num 5) :=
  ⟨(C8_amended "Error code: 400 - \x7b\"error\": \x7b\"message\": \"hi there\"\x7d\x7d").2.2.1
      "\x7b\"error\": \x7b\"message\": \"hi there\"\x7d\x7d".data
      [("error", Json.obj [("message", Json.str "hi there")])]
      [("message", Json.str "hi there")] (Json.str "hi there")
      (by decide) (by decide) (by decide) (by decide) rfl rfl rfl,
    (C8_amended "Error code: 400 - \x7b\"error\": \x7b\"message\": 5\x7d\x7d").2.2.1
      "\x7b\"error\": \x7b\"message\": 5\x7d\x7d".data
      [("error", Json.obj [("message", Json.num 5)])]
      [("message", Json.num 5)] (Json.num 5)
      (by decide) (by decide) (by decide) (by decide) rfl rfl rfl⟩

/-- C8 counterexample: the string
`\x7b"error": \x7b"message": "hi"\x7d\x7d junk\x7d` embeds a JSON object whose
`error.message` is `"hi"`, yet the function returns the string unchanged:
the greedy regex span runs to the final brace and fails to parse, so the
claim's "if a JSON object with an error.message field is embedded, that
message is returned" does not hold of the code. -/
theorem C8_counterexample :
    containsStr "\x7b\"error\": \x7b\"message\": \"hi\"\x7d\x7d junk\x7d"
      "\x7b\"error\": \x7b\"message\": \"hi\"\x7d\x7d" ∧
    jsonLoads "\x7b\"error\": \x7b\"message\": \"hi\"\x7d\x7d" =
      some (Json.obj [("error", Json.obj [("message", Json.str "hi")])]) ∧
    ¬ containsStr (pylower "\x7b\"error\": \x7b\"message\": \"hi\"\x7d\x7d junk\x7d") "billing" ∧
    ¬ containsStr (pylower "\x7b\"error\": \x7b\"message\": \"hi\"\x7d\x7d junk\x7d") "invalid_api_key" ∧
    ¬ containsStr (pylower "\x7b\"error\": \x7b\"message\": \"hi\"\x7d\x7d junk\x7d") "incorrect api key" ∧
    parse_openai_error "\x7b\"error\": \x7b\"message\": \"hi\"\x7d\x7d junk\x7d" =
      PyValue.str "\x7b\"error\": \x7b\"message\": \"hi\"\x7d\x7d junk\x7d" ∧
    "\x7b\"error\": \x7b\"message\": \"hi\"\x7d\x7d junk\x7d" ≠ "hi" :=
  ⟨by decide, rfl, by decide, by decide, by decide, rfl, by decide⟩

/-! ## Generation loop lemmas -/

/-- The API key is configured and non-blank, so the job does not fail
fast on credentials. -/
def apiKeyOk (env : GenEnv) : Prop :=
  ∃ k, env.apiKey = some k ∧ pystrip k ≠ ""

/-- Lifting an event count through the `some` wrapping of the queue. -/
theorem countP_map_some (p : ProgressEvent → Bool) (l : List ProgressEvent) :
    (l.map some).countP (qPred p) = l.countP p := by
  induction l with
  | nil => rfl
  | cons a l ih => simp [List.countP_cons, ih, qPred]

/-- Real events are never the sentinel. -/
theorem countP_map_some_sentinel (l : List ProgressEvent) :
    (l.map some).countP qIsSentinel = 0 := by
  induction l with
  | nil => rfl
  | cons a l ih => simp [List.countP_cons, ih, qIsSentinel]

/-- Progress events alone satisfy none of the start/complete/error/
terminal predicates, so a download's callback burst counts for nothing. -/
theorem countP_progress_map (p : ProgressEvent → Bool)
    (hp : ∀ i total pr st msg, p (ProgressEvent.progress i total pr st msg) = false)
    (i total : Nat) (dp : List (ℚ × String)) :
    (dp.map (fun pr => ProgressEvent.progress i total pr.1 pr.2
      ("Shot " ++ toString i ++ ": " ++ pr.2 ++ "... " ++ toString pr.1 ++ "%"))).countP p
      = 0 := by
  rw [List.countP_map]
  refine List.countP_eq_zero.mpr ?_
  intro a _
  simp [Function.comp, hp]

/-- When the first `rest.length` shots from `idx` on all succeed, the
loop raises nothing, issues one call per shot, appends one result per
shot, and emits exactly one `shot_start` and one `shot_complete` per
shot and no terminal events. -/
theorem genLoop_ok (env : GenEnv) (allShots : List Shot) (total : Nat)
    (q m od : String) (ref : Option String) :
    ∀ (rest : List Shot) (idx : Nat) (prev : Option String),
    (∀ k, k < rest.length → shotOk env (idx + k)) →
    (genLoop env allShots total q m od ref rest idx prev).2.2.2 = none ∧
    (genLoop env allShots total q m od ref rest idx prev).1.countP evIsShotStart
      = rest.length ∧
    (genLoop env allShots total q m od ref rest idx prev).1.countP evIsShotComplete
      = rest.length ∧
    (genLoop env allShots total q m od ref rest idx prev).1.countP evIsError = 0 ∧
    (genLoop env allShots total q m od ref rest idx prev).1.countP evIsComplete = 0 ∧
    (genLoop env allShots total q m od ref rest idx prev).2.1.length = rest.length ∧
    (genLoop env allShots total q m od ref rest idx prev).2.2.1.length = rest.length := by
  intro rest
  induction rest with
  | nil =>
    intro idx prev _
    exact ⟨rfl, rfl, rfl, rfl, rfl, rfl, rfl⟩
  | cons shot rest ih =>
    intro idx prev hok
    have h0 : shotOk env idx := by
      have := hok 0 (by simp)
      simpa using this
    obtain ⟨⟨vid, hvid⟩, hdl⟩ := h0
    obtain ⟨i1, i2, i3, i4, i5, i6, i7⟩ := ih (idx + 1) (some vid) (fun k hk => by
      have := hok (k + 1) (by simpa using Nat.succ_lt_succ hk)
      rwa [show idx + (k + 1) = idx + 1 + k by omega] at this)
    refine ⟨?_, ?_, ?_, ?_, ?_, ?_, ?_⟩ <;>
      simp [genLoop, hvid, hdl, List.countP_cons, List.countP_append,
        countP_progress_map, evIsShotStart, evIsShotComplete, evIsError, evIsComplete,
        i1, i2, i3, i4, i5, i6, i7]

/-- When the shots before local index `j` succeed and shot `j` fails (its
remote call or its download raises), the loop stops there with the raised
error: `j + 1` shots were started, `j` completed, and no terminal event
was emitted by the loop itself. -/
theorem genLoop_fail (env : GenEnv) (allShots : List Shot) (total : Nat)
    (q m od : String) (ref : Option String) :
    ∀ (rest : List Shot) (idx : Nat) (prev : Option String) (j : Nat),
    j < rest.length → (∀ k, k < j → shotOk env (idx + k)) → ¬ shotOk env (idx + j) →
    ∃ e,
      (genLoop env allShots total q m od ref rest idx prev).2.2.2 = some e ∧
      (genLoop env allShots total q m od ref rest idx prev).1.countP evIsShotStart
        = j + 1 ∧
      (genLoop env allShots total q m od ref rest idx prev).1.countP evIsShotComplete
        = j ∧
      (genLoop env allShots total q m od ref rest idx prev).1.countP evIsError = 0 ∧
      (genLoop env allShots total q m od ref rest idx prev).1.countP evIsComplete = 0 := by
  intro rest
  induction rest with
  | nil =>
    intro idx prev j hj
    exact absurd hj (by simp)
  | cons shot rest ih =>
    intro idx prev j hj hok hbad
    cases j with
    | zero =>
      have hbad0 : ¬ shotOk env idx := by simpa using hbad
      rcases hvid : (env.outcomes idx).callResult with e | vid
      · refine ⟨e, ?_, ?_, ?_, ?_, ?_⟩ <;>
          simp [genLoop, hvid, List.countP_cons,
            evIsShotStart, evIsShotComplete, evIsError, evIsComplete]
      · rcases hdl : (env.outcomes idx).downloadResult with e | u
        · refine ⟨e, ?_, ?_, ?_, ?_, ?_⟩ <;>
            simp [genLoop, hvid, hdl, List.countP_cons, List.countP_append,
              countP_progress_map,
              evIsShotStart, evIsShotComplete, evIsError, evIsComplete]
        · cases u
          exact absurd ⟨⟨vid, hvid⟩, hdl⟩ hbad0
    | succ j =>
      have h0 : shotOk env idx := by
        have := hok 0 (by omega)
        simpa using this
      obtain ⟨⟨vid, hvid⟩, hdl⟩ := h0
      obtain ⟨e, i1, i2, i3, i4, i5⟩ := ih (idx + 1) (some vid) j (by simpa using hj)
        (fun k hk => by
          have := hok (k + 1) (by omega)
          rwa [show idx + (k + 1) = idx + 1 + k by omega] at this)
        (by rwa [show idx + 1 + j = idx + (j + 1) by omega])
      refine ⟨e, ?_, ?_, ?_, ?_, ?_⟩ <;>
        simp [genLoop, hvid, hdl, List.countP_cons, List.countP_append,
          countP_progress_map, evIsShotStart, evIsShotComplete, evIsError, evIsComplete,
          i1, i2, i3, i4, i5]

/-- The call trace of the generation loop: when the shots before local
index `j` succeed, the call for `j` exists; the very first shot of a run
is the single `create` call, every later one is a `remix` call whose
`video_id` is exactly the id returned by the immediately preceding
shot's remote call. -/
theorem genLoop_calls (env : GenEnv) (allShots : List Shot) (total : Nat)
    (q m od : String) (ref : Option String) :
    ∀ (rest : List Shot) (idx : Nat) (prev : Option String) (j : Nat) (hj : j < rest.length),
    (∀ k, k < j → shotOk env (idx + k)) →
    (1 ≤ idx → prev = some (idAt env (idx - 1))) →
    (genLoop env allShots total q m od ref rest idx prev).2.1.get? j =
      some (if idx + j = 0 then
        RemoteCall.create m (build_prompt (rest.get ⟨j, hj⟩) 1 allShots) q "12" ref
      else
        RemoteCall.remix (idAt env (idx + j - 1))
          (build_prompt (rest.get ⟨j, hj⟩) (idx + j + 1) allShots)) := by
  intro rest
  induction rest with
  | nil =>
    intro idx prev j hj
    exact absurd hj (by simp)
  | cons shot rest ih =>
    intro idx prev j hj hok hprev
    cases j with
    | zero =>
      have hcall : ∀ tail1 : List RemoteCall,
          ((if idx = 0 then RemoteCall.create m (build_prompt shot (idx + 1) allShots) q "12" ref
            else RemoteCall.remix (prev.getD "") (build_prompt shot (idx + 1) allShots)) ::
            tail1).get? 0 =
          some (if idx + 0 = 0 then
            RemoteCall.create m (build_prompt ((shot :: rest).get ⟨0, hj⟩) 1 allShots) q "12" ref
          else
            RemoteCall.remix (idAt env (idx + 0 - 1))
              (build_prompt ((shot :: rest).get ⟨0, hj⟩) (idx + 0 + 1) allShots)) := by
        intro tail1
        rcases Nat.eq_zero_or_pos idx with h0 | h0
        · subst h0
          simp
        · have hne : ¬ idx = 0 := by omega
          have hp := hprev h0
          simp [hne, hp]
      rcases hvid : (env.outcomes idx).callResult with e | vid
      · simpa [genLoop, hvid] using hcall []
      · rcases hdl : (env.outcomes idx).downloadResult with e | u
        · simpa [genLoop, hvid, hdl] using hcall []
        · cases u
          simpa [genLoop, hvid, hdl] using
            hcall ((genLoop env allShots total q m od ref rest (idx + 1) (some vid)).2.1)
    | succ j =>
      have h0 : shotOk env idx := by
        have := hok 0 (by omega)
        simpa using this
      obtain ⟨⟨vid, hvid⟩, hdl⟩ := h0
      have hvic : vid = idAt env idx := by
        unfold idAt
        rw [hvid]
      have hrec := ih (idx + 1) (some vid) j (by simpa using hj)
        (fun k hk => by
          have := hok (k + 1) (by omega)
          rwa [show idx + (k + 1) = idx + 1 + k by omega] at this)
        (fun _ => by rw [hvic]; simp)
      have hne : ¬ idx + (j + 1) = 0 := by omega
      have harith : idx + 1 + j = idx + (j + 1) := by omega
      rw [harith] at hrec
      simp only [genLoop, hvid, hdl]
      rw [List.get?_cons_succ]
      exact hrec

/-- The call trace of the remix-sequence loop: shot `j`'s call is a
`remix` whose `video_id` is the caller's source video for the very first
shot and the id produced by the immediately preceding shot afterwards. -/
theorem remixLoop_calls (env : GenEnv) (total : Nat) (od : String) (vid0 : String) :
    ∀ (rest : List Shot) (idx : Nat) (prev : String) (j : Nat) (hj : j < rest.length),
    (∀ k, k < j → shotOk env (idx + k)) →
    (prev = if idx = 0 then vid0 else idAt env (idx - 1)) →
    (remixLoop env total od rest idx prev).2.1.get? j =
      some (RemoteCall.remix (if idx + j = 0 then vid0 else idAt env (idx + j - 1))
        (build_prompt (rest.get ⟨j, hj⟩) 2 [rest.get ⟨j, hj⟩])) := by
  intro rest
  induction rest with
  | nil =>
    intro idx prev j hj
    exact absurd hj (by simp)
  | cons shot rest ih =>
    intro idx prev j hj hok hprev
    cases j with
    | zero =>
      have hcall : ∀ tail1 : List RemoteCall,
          (RemoteCall.remix prev (build_prompt shot 2 [shot]) :: tail1).get? 0 =
          some (RemoteCall.remix (if idx + 0 = 0 then vid0 else idAt env (idx + 0 - 1))
            (build_prompt ((shot :: rest).get ⟨0, hj⟩) 2 [(shot :: rest).get ⟨0, hj⟩])) := by
        intro tail1
        simp [hprev]
      rcases hvid : (env.outcomes idx).callResult with e | vid
      · simpa [remixLoop, hvid] using hcall []
      · rcases hdl : (env.outcomes idx).downloadResult with e | u
        · simpa [remixLoop, hvid, hdl] using hcall []
        · cases u
          simpa [remixLoop, hvid, hdl] using
            hcall ((remixLoop env total od rest (idx + 1) vid).2.1)
    | succ j =>
      have h0 : shotOk env idx := by
        have := hok 0 (by omega)
        simpa using this
      obtain ⟨⟨vid, hvid⟩, hdl⟩ := h0
      have hvic : vid = idAt env idx := by
        unfold idAt
        rw [hvid]
      have hrec := ih (idx + 1) vid j (by simpa using hj)
        (fun k hk => by
          have := hok (k + 1) (by omega)
          rwa [show idx + (k + 1) = idx + 1 + k by omega] at this)
        (by simp [hvic])
      have harith : idx + 1 + j = idx + (j + 1) := by omega
      rw [harith] at hrec
      simp only [remixLoop, hvid, hdl]
      rw [List.get?_cons_succ]
      exact hrec

/-- With a usable API key, the generation job runs its body. -/
theorem generate_with_key {env : GenEnv} (hkey : apiKeyOk env)
    (shots : List Shot) (refs : List (Option String)) (q m : String) :
    generate_video_sequence env shots refs q m = generate_body env shots refs q m := by
  obtain ⟨k, hk, hne⟩ := hkey
  have hk0 : k ≠ "" := fun h => hne (by rw [h]; rfl)
  unfold generate_video_sequence
  rw [hk]
  dsimp only
  rw [if_neg (by simp [hk0, hne])]

/-- With a usable API key, the remix-sequence job runs its body. -/
theorem remix_with_key {env : GenEnv} (hkey : apiKeyOk env)
    (vid0 : String) (shots : List Shot) :
    remix_video_sequence env vid0 shots = remix_body env vid0 shots := by
  obtain ⟨k, hk, hne⟩ := hkey
  have hk0 : k ≠ "" := fun h => hne (by rw [h]; rfl)
  unfold remix_video_sequence
  rw [hk]
  dsimp only
  rw [if_neg (by simp [hk0, hne])]

/-- The calls a generation body issues are those of its loop, whether or
not the run raised. -/
theorem generate_body_calls (env : GenEnv) (shots : List Shot)
    (refs : List (Option String)) (q m : String) :
    (generate_body env shots refs q m).2.2 =
      (genLoop env shots shots.length q m ("output/sequence_" ++ env.timestamp)
        (refInputOf env refs) shots 0 none).2.1 := by
  unfold generate_body
  dsimp only
  rcases (genLoop env shots shots.length q m ("output/sequence_" ++ env.timestamp)
      (refInputOf env refs) shots 0 none).2.2.2 with _ | e <;> rfl

/-- The calls a remix body issues are those of its loop. -/
theorem remix_body_calls (env : GenEnv) (vid0 : String) (shots : List Shot) :
    (remix_body env vid0 shots).2.2 =
      (remixLoop env shots.length ("output/sequence_" ++ env.timestamp) shots 0 vid0).2.1 := by
  unfold remix_body
  dsimp only
  rcases (remixLoop env shots.length ("output/sequence_" ++ env.timestamp)
      shots 0 vid0).2.2.2 with _ | e <;> rfl

/-! ## Claim C2 -/

/-- C2: in both the multi-shot generation run and the remix-sequence run,
the remote call issued for shot `i` with `i > 1` is a `remix` call — the
`RemoteCall.remix` constructor carries exactly `video_id` and `prompt`,
with no size, model or image field — and its `video_id` is the remote
identifier produced by shot `i - 1` of the same run (`idAt env (i - 2)`
in 0-based indexing).  Since the call equals that one id, it references
an earlier shot's id or the remix run's original source id only if the
remote service returned the same identifier twice. -/
theorem C2_remix_chain (env : GenEnv) (shots : List Shot) (refs : List (Option String))
    (q m vid0 : String) (i : Nat) (hkey : apiKeyOk env) (hi : 2 ≤ i)
    (hile : i ≤ shots.length) (hok : ∀ k, k < i - 1 → shotOk env k) :
    (generate_video_sequence env shots refs q m).2.2.get? (i - 1) =
      some (RemoteCall.remix (idAt env (i - 2))
        (build_prompt (shots.get ⟨i - 1, by omega⟩) i shots)) ∧
    (remix_video_sequence env vid0 shots).2.2.get? (i - 1) =
      some (RemoteCall.remix (idAt env (i - 2))
        (build_prompt (shots.get ⟨i - 1, by omega⟩) 2 [shots.get ⟨i - 1, by omega⟩])) := by
  constructor
  · rw [generate_with_key hkey, generate_body_calls]
    have hcalls := genLoop_calls env shots shots.length q m
      ("output/sequence_" ++ env.timestamp) (refInputOf env refs) shots 0 none (i - 1)
      (by omega) (fun k hk2 => by simpa using hok k hk2) (fun h => absurd h (by omega))
    rw [if_neg (by omega)] at hcalls
    rw [show 0 + (i - 1) - 1 = i - 2 by omega, show 0 + (i - 1) + 1 = i by omega] at hcalls
    exact hcalls
  · rw [remix_with_key hkey, remix_body_calls]
    have hcalls := remixLoop_calls env shots.length
      ("output/sequence_" ++ env.timestamp) vid0 shots 0 vid0 (i - 1)
      (by omega) (fun k hk2 => by simpa using hok k hk2) (by simp)
    rw [if_neg (by omega)] at hcalls
    rw [show 0 + (i - 1) - 1 = i - 2 by omega] at hcalls
    exact hcalls

/-- Witness for C2 at a concrete 3-shot run, checking shot 2's call in
both run kinds. -/
theorem C2_remix_chain_witness :
    (generate_video_sequence
      ⟨some "sk-test", fun j => ⟨Except.ok ("vid" ++ toString j), [], Except.ok ()⟩,
        fun _ => false, fun p => p, "20240101_000000"⟩
      [⟨"", "", "", "", "A", ""⟩, ⟨"", "", "", "", "B", ""⟩, ⟨"", "", "", "", "C", ""⟩]
      [] "720x1280" "sora-2-pro").2.2.get? 1 =
      some (RemoteCall.remix
        (idAt ⟨some "sk-test", fun j => ⟨Except.ok ("vid" ++ toString j), [], Except.ok ()⟩,
          fun _ => false, fun p => p, "20240101_000000"⟩ 0)
        (build_prompt ⟨"", "", "", "", "B", ""⟩ 2
          [⟨"", "", "", "", "A", ""⟩, ⟨"", "", "", "", "B", ""⟩, ⟨"", "", "", "", "C", ""⟩])) ∧
    (remix_video_sequence
      ⟨some "sk-test", fun j => ⟨Except.ok ("vid" ++ toString j), [], Except.ok ()⟩,
        fun _ => false, fun p => p, "20240101_000000"⟩
      "source_vid"
      [⟨"", "", "", "", "A", ""⟩, ⟨"", "", "", "", "B", ""⟩, ⟨"", "", "", "", "C", ""⟩]).2.2.get? 1 =
      some (RemoteCall.remix
        (idAt ⟨some "sk-test", fun j => ⟨Except.ok ("vid" ++ toString j), [], Except.ok ()⟩,
          fun _ => false, fun p => p, "20240101_000000"⟩ 0)
        (build_prompt ⟨"", "", "", "", "B", ""⟩ 2 [⟨"", "", "", "", "B", ""⟩])) :=
  C2_remix_chain
    ⟨some "sk-test", fun j => ⟨Except.ok ("vid" ++ toString j), [], Except.ok ()⟩,
      fun _ => false, fun p => p, "20240101_000000"⟩
    [⟨"", "", "", "", "A", ""⟩, ⟨"", "", "", "", "B", ""⟩, ⟨"", "", "", "", "C", ""⟩]
    [] "720x1280" "sora-2-pro" "source_vid" 2
    ⟨"sk-test", rfl, by decide⟩ (by decide) (by decide)
    (fun k _ => ⟨⟨"vid" ++ toString k, rfl⟩, rfl⟩)

/-! ## Claim C3 -/

/-- C3 counterexample: `generate_video_sequence` invoked directly with 4
shots (all remote interactions succeeding) performs no shot-count
validation — it issues 4 remote calls and returns a completed result,
rather than failing fast with a configuration error before any call. -/
theorem C3_counterexample :
    (generate_video_sequence
      ⟨some "sk-test", fun j => ⟨Except.ok ("vid" ++ toString j), [], Except.ok ()⟩,
        fun _ => false, fun p => p, "20240101_000000"⟩
      [⟨"", "", "", "", "A", ""⟩, ⟨"", "", "", "", "B", ""⟩,
        ⟨"", "", "", "", "C", ""⟩, ⟨"", "", "", "", "D", ""⟩]
      [] "720x1280" "sora-2-pro").2.2.length = 4 ∧
    (generate_video_sequence
      ⟨some "sk-test", fun j => ⟨Except.ok ("vid" ++ toString j), [], Except.ok ()⟩,
        fun _ => false, fun p => p, "20240101_000000"⟩
      [⟨"", "", "", "", "A", ""⟩, ⟨"", "", "", "", "B", ""⟩,
        ⟨"", "", "", "", "C", ""⟩, ⟨"", "", "", "", "D", ""⟩]
      [] "720x1280" "sora-2-pro").1.status = "completed" ∧
    (generate_video_sequence
      ⟨some "sk-test", fun j => ⟨Except.ok ("vid" ++ toString j), [], Except.ok ()⟩,
        fun _ => false, fun p => p, "20240101_000000"⟩
      [⟨"", "", "", "", "A", ""⟩, ⟨"", "", "", "", "B", ""⟩,
        ⟨"", "", "", "", "C", ""⟩, ⟨"", "", "", "", "D", ""⟩]
      [] "720x1280" "sora-2-pro").1.status ≠ "error" :=
  ⟨rfl, rfl, by decide⟩

/-- C3 (amended): `generate_video_sequence` itself performs no shot-count
validation — with a configured key and all remote interactions
succeeding it issues one remote call per given shot and completes, for
any shot count; the [1,3] bound is enforced only by the HTTP handler,
which rejects exactly the empty list and lists longer than 3 before a
job is created. -/
theorem C3_amended (env : GenEnv) (shots : List Shot) (refs : List (Option String))
    (q m : String) (hkey : apiKeyOk env) (hok : ∀ k, k < shots.length → shotOk env k) :
    (generate_video_sequence env shots refs q m).2.2.length = shots.length ∧
    (generate_video_sequence env shots refs q m).1.status = "completed" ∧
    (∀ sd : List Shot, generate_route_shot_check sd = GenerateDecision.started ↔
      sd ≠ [] ∧ sd.length ≤ 3) := by
  obtain ⟨g1, g2, g3, g4, g5, g6, g7⟩ := genLoop_ok env shots shots.length q m
    ("output/sequence_" ++ env.timestamp) (refInputOf env refs) shots 0 none
    (fun k hk2 => by simpa using hok k hk2)
  refine ⟨?_, ?_, ?_⟩
  · rw [generate_with_key hkey, generate_body_calls]
    exact g6
  · rw [generate_with_key hkey]
    unfold generate_body
    dsimp only
    rw [g1]
  · intro sd
    by_cases h1 : sd = []
    · simp [generate_route_shot_check, h1]
    · by_cases h2 : sd.length > 3
      · simp only [generate_route_shot_check, if_neg h1, if_pos h2]
        constructor
        · intro hcon
          cases hcon
        · intro hcon
          omega
      · simp only [generate_route_shot_check, if_neg h1, if_neg h2]
        constructor
        · intro _
          exact ⟨h1, by omega⟩
        · intro _
          trivial

/-- Witness for C3 (amended) at a concrete 2-shot run. -/
theorem C3_amended_witness :
    (generate_video_sequence
      ⟨some "sk-test", fun j => ⟨Except.ok ("vid" ++ toString j), [], Except.ok ()⟩,
        fun _ => false, fun p => p, "20240101_000000"⟩
      [⟨"", "", "", "", "A", ""⟩, ⟨"", "", "", "", "B", ""⟩]
      [] "720x1280" "sora-2-pro").2.2.length = 2 ∧
    (generate_video_sequence
      ⟨some "sk-test", fun j => ⟨Except.ok ("vid" ++ toString j), [], Except.ok ()⟩,
        fun _ => false, fun p => p, "20240101_000000"⟩
      [⟨"", "", "", "", "A", ""⟩, ⟨"", "", "", "", "B", ""⟩]
      [] "720x1280" "sora-2-pro").1.status = "completed" :=
  ⟨(C3_amended
      ⟨some "sk-test", fun j => ⟨Except.ok ("vid" ++ toString j), [], Except.ok ()⟩,
        fun _ => false, fun p => p, "20240101_000000"⟩
      [⟨"", "", "", "", "A", ""⟩, ⟨"", "", "", "", "B", ""⟩]
      [] "720x1280" "sora-2-pro" ⟨"sk-test", rfl, by decide⟩
      (fun k _ => ⟨⟨"vid" ++ toString k, rfl⟩, rfl⟩)).1,
    (C3_amended
      ⟨some "sk-test", fun j => ⟨Except.ok ("vid" ++ toString j), [], Except.ok ()⟩,
        fun _ => false, fun p => p, "20240101_000000"⟩
      [⟨"", "", "", "", "A", ""⟩, ⟨"", "", "", "", "B", ""⟩]
      [] "720x1280" "sora-2-pro" ⟨"sk-test", rfl, by decide⟩
      (fun k _ => ⟨⟨"vid" ++ toString k, rfl⟩, rfl⟩)).2.1⟩

/-! ## Claim C1 -/

/-- C1 counterexample: a 1-shot run whose remote call raises pushes BOTH
an `error` event (from inside `generate_video_sequence`) and a
`complete` event (from `run_generation_in_thread`, since the job
function catches the exception and returns an error-status result) onto
the same job queue — contradicting the claim that a queue receives a
`complete` xor an `error` event and never both. -/
theorem C1_counterexample :
    ((run_generation_in_thread
      ⟨some "sk-test", fun _ => ⟨Except.error "boom", [], Except.ok ()⟩,
        fun _ => false, fun p => p, "20240101_000000"⟩
      [⟨"", "", "", "", "A", ""⟩] [] "720x1280" "sora-2-pro").1).countP
        (qPred evIsError) = 1 ∧
    ((run_generation_in_thread
      ⟨some "sk-test", fun _ => ⟨Except.error "boom", [], Except.ok ()⟩,
        fun _ => false, fun p => p, "20240101_000000"⟩
      [⟨"", "", "", "", "A", ""⟩] [] "720x1280" "sora-2-pro").1).countP
        (qPred evIsComplete) = 1 :=
  ⟨rfl, rfl⟩

/-- C1 (amended): with a configured key, a run with `N` shots
(`1 ≤ N ≤ 3`) queues, when every remote call and download succeeds,
exactly `N` `shot_start` and `N` `shot_complete` events, then exactly
one `complete` event (status "completed") and exactly one sentinel, in
that order with no error event; and when the run first raises at shot
`j`, it queues `j + 1` `shot_start` and `j` `shot_complete` events and
then exactly one `error` event followed by exactly one `complete` event
(carrying the error-status result) and exactly one sentinel — so a
failing run's queue receives both terminal event kinds. -/
theorem C1_amended (env : GenEnv) (shots : List Shot) (refs : List (Option String))
    (q m : String) (hkey : apiKeyOk env) (hn1 : 1 ≤ shots.length)
    (hn3 : shots.length ≤ 3) :
    ((∀ k, k < shots.length → shotOk env k) →
      ∃ p er, (run_generation_in_thread env shots refs q m).1 =
          p ++ [some (ProgressEvent.complete "completed" er), none] ∧
        er = none ∧
        p.countP (qPred evIsShotStart) = shots.length ∧
        p.countP (qPred evIsShotComplete) = shots.length ∧
        p.countP (qPred evIsError) = 0 ∧
        p.countP (qPred evIsComplete) = 0 ∧
        p.countP qIsSentinel = 0) ∧
    (∀ j, j < shots.length → (∀ k, k < j → shotOk env k) → ¬ shotOk env j →
      ∃ p e, (run_generation_in_thread env shots refs q m).1 =
          p ++ [some (ProgressEvent.error (parse_openai_error e) e),
            some (ProgressEvent.complete "error" (some e)), none] ∧
        p.countP (qPred evIsShotStart) = j + 1 ∧
        p.countP (qPred evIsShotComplete) = j ∧
        p.countP (qPred evIsError) = 0 ∧
        p.countP (qPred evIsComplete) = 0 ∧
        p.countP qIsSentinel = 0) := by
  constructor
  · intro hok
    obtain ⟨g1, g2, g3, g4, g5, g6, g7⟩ := genLoop_ok env shots shots.length q m
      ("output/sequence_" ++ env.timestamp) (refInputOf env refs) shots 0 none
      (fun k hk2 => by simpa using hok k hk2)
    unfold run_generation_in_thread
    rw [generate_with_key hkey]
    unfold generate_body
    dsimp only
    rw [g1]
    dsimp only
    refine ⟨(genLoop env shots shots.length q m ("output/sequence_" ++ env.timestamp)
        (refInputOf env refs) shots 0 none).1.map some, none, rfl, rfl, ?_, ?_, ?_, ?_, ?_⟩
    · rw [countP_map_some]
      exact g2
    · rw [countP_map_some]
      exact g3
    · rw [countP_map_some]
      exact g4
    · rw [countP_map_some]
      exact g5
    · exact countP_map_some_sentinel _
  · intro j hj hok hbad
    obtain ⟨e, f1, f2, f3, f4, f5⟩ := genLoop_fail env shots shots.length q m
      ("output/sequence_" ++ env.timestamp) (refInputOf env refs) shots 0 none j hj
      (fun k hk2 => by simpa using hok k hk2) (by simpa using hbad)
    unfold run_generation_in_thread
    rw [generate_with_key hkey]
    unfold generate_body
    dsimp only
    rw [f1]
    dsimp only
    refine ⟨(genLoop env shots shots.length q m ("output/sequence_" ++ env.timestamp)
        (refInputOf env refs) shots 0 none).1.map some, e, by simp, ?_, ?_, ?_, ?_, ?_⟩
    · rw [countP_map_some]
      exact f2
    · rw [countP_map_some]
      exact f3
    · rw [countP_map_some]
      exact f4
    · rw [countP_map_some]
      exact f5
    · exact countP_map_some_sentinel _

/-- Witness for C1 (amended): both branches at concrete runs — a clean
2-shot run and a run failing at its first shot. -/
theorem C1_amended_witness :
    (∃ p er, (run_generation_in_thread
        ⟨some "sk-test", fun j => ⟨Except.ok ("vid" ++ toString j), [], Except.ok ()⟩,
          fun _ => false, fun p => p, "20240101_000000"⟩
        [⟨"", "", "", "", "A", ""⟩, ⟨"", "", "", "", "B", ""⟩]
        [] "720x1280" "sora-2-pro").1 =
        p ++ [some (ProgressEvent.complete "completed" er), none] ∧
      er = none ∧
      p.countP (qPred evIsShotStart) = 2 ∧
      p.countP (qPred evIsShotComplete) = 2 ∧
      p.countP (qPred evIsError) = 0 ∧
      p.countP (qPred evIsComplete) = 0 ∧
      p.countP qIsSentinel = 0) ∧
    (∃ p e, (run_generation_in_thread
        ⟨some "sk-test", fun _ => ⟨Except.error "boom", [], Except.ok ()⟩,
          fun _ => false, fun p => p, "20240101_000000"⟩
        [⟨"", "", "", "", "A", ""⟩] [] "720x1280" "sora-2-pro").1 =
        p ++ [some (ProgressEvent.error (parse_openai_error e) e),
          some (ProgressEvent.complete "error" (some e)), none] ∧
      p.countP (qPred evIsShotStart) = 0 + 1 ∧
      p.countP (qPred evIsShotComplete) = 0 ∧
      p.countP (qPred evIsError) = 0 ∧
      p.countP (qPred evIsComplete) = 0 ∧
      p.countP qIsSentinel = 0) :=
  ⟨(C1_amended
      ⟨some "sk-test", fun j => ⟨Except.ok ("vid" ++ toString j), [], Except.ok ()⟩,
        fun _ => false, fun p => p, "20240101_000000"⟩
      [⟨"", "", "", "", "A", ""⟩, ⟨"", "", "", "", "B", ""⟩]
      [] "720x1280" "sora-2-pro" ⟨"sk-test", rfl, by decide⟩ (by decide) (by decide)).1
      (fun k _ => ⟨⟨"vid" ++ toString k, rfl⟩, rfl⟩),
    (C1_amended
      ⟨some "sk-test", fun _ => ⟨Except.error "boom", [], Except.ok ()⟩,
        fun _ => false, fun p => p, "20240101_000000"⟩
      [⟨"", "", "", "", "A", ""⟩] [] "720x1280" "sora-2-pro"
      ⟨"sk-test", rfl, by decide⟩ (by decide) (by decide)).2 0 (by decide)
      (fun k hk => absurd hk (by omega))
      (fun hcon => by
        obtain ⟨⟨v, hv⟩, _⟩ := hcon
        cases hv)⟩

end Dicode
